import Mathlib

/-!
A shallow embedding of the body-lowering stage found in
`crates/ra_hir_def/src/body/lower.rs`: the translation of concrete syntax
expressions and patterns into an arena-allocated IR (`Body`) together with a
bidirectional source map (`BodySourceMap`).  External collaborators (the
syntax-tree accessors, the macro expander, the definition database) are
modelled at their interfaces; types declared in sibling modules of the same
crate that are not part of the lowering file itself are modelled from the
specification's data model.
-/

set_option maxHeartbeats 1000000

namespace Lower

/-- Names are plain text, as produced by the syntax accessors. -/
abbrev Name := String

/-- `Name::missing()`: the sentinel name used when a name token is absent. -/
def Name.missing : Name := "[missing name]"

/-- File identities (`HirFileId`): change under macro expansion. -/
abbrev FileId := Nat

/-- Expression ids: densely packed indices into the body's expression arena. -/
abbrev ExprId := Nat

/-- Pattern ids: densely packed indices into the body's pattern arena. -/
abbrev PatId := Nat

/-- Modelled from the spec: the sentinel root-expression id installed before
lowering runs (`dummy_expr_id`, declared outside the lowering file). -/
def dummyExprId : ExprId := 4294967295

/-- A value paired with the file it comes from (`InFile<T>`); source pointers
are keyed this way throughout the source map. -/
structure InFile (α : Type) where
  fileId : FileId
  value : α
  deriving DecidableEq, Repr

/-- The source pointer stored for an expression: either a pointer to an
expression node or (for field shorthand) a pointer to a record field
(`Either<AstPtr<ast::Expr>, AstPtr<ast::RecordField>>`). -/
inductive ExprPtr : Type
  | exprP (p : Nat)
  | fieldP (p : Nat)
  deriving DecidableEq, Repr

/-- The source pointer stored for a pattern: either a pattern node or a
`self` parameter (`PatPtr = Either<AstPtr<ast::Pat>, AstPtr<ast::SelfParam>>`). -/
inductive PatPtr : Type
  | patP (p : Nat)
  | selfP (p : Nat)
  deriving DecidableEq, Repr

abbrev ExprSource := InFile ExprPtr
abbrev PatSource := InFile PatPtr

/-- The synthetic marker recorded for desugared/placeholder nodes with no
source of their own. -/
inductive Synthetic : Type
  | mk
  deriving DecidableEq, Repr

/-- Paths, as produced by the expander's path parser or built from a single
name (`Path`, declared outside the lowering file; modelled from the spec as a
segment sequence). -/
structure Path where
  segments : List Name
  deriving DecidableEq, Repr

/-- `Path::from_name_ref`: a single-segment path from a name reference. -/
def Path.fromNameRef (n : Name) : Path := ⟨[n]⟩

/-- `Name → Path` conversion (`name.into()`): a single-segment path. -/
def Path.fromName (n : Name) : Path := ⟨[n]⟩

/-- Built-in integer types recognized by literal suffixes.  Modelled from the
spec: the `builtin_type` module is not part of the lowering file. -/
inductive BuiltinInt : Type
  | u8 | u16 | u32 | u64 | u128 | usize
  | i8 | i16 | i32 | i64 | i128 | isize
  deriving DecidableEq, Repr

/-- Modelled from the spec: `BuiltinInt::from_suffix`. -/
def BuiltinInt.fromSuffix (s : String) : Option BuiltinInt :=
  match s with
  | "u8" => some .u8 | "u16" => some .u16 | "u32" => some .u32
  | "u64" => some .u64 | "u128" => some .u128 | "usize" => some .usize
  | "i8" => some .i8 | "i16" => some .i16 | "i32" => some .i32
  | "i64" => some .i64 | "i128" => some .i128 | "isize" => some .isize
  | _ => none

/-- Built-in float types recognized by literal suffixes (modelled from the
spec, as for `BuiltinInt`). -/
inductive BuiltinFloat : Type
  | f32 | f64
  deriving DecidableEq, Repr

/-- Modelled from the spec: `BuiltinFloat::from_suffix`. -/
def BuiltinFloat.fromSuffix (s : String) : Option BuiltinFloat :=
  match s with
  | "f32" => some .f32 | "f64" => some .f64 | _ => none

/-- IR literals (`Literal`); numeric payloads are defaulted by the
conversion from syntax literal kinds, so only the suffix information
survives. -/
inductive Literal : Type
  | int (suffix : Option BuiltinInt)
  | float (suffix : Option BuiltinFloat)
  | byteString
  | str
  | bool (b : Bool)
  | char
  deriving DecidableEq, Repr

/-- Syntax literal kinds (`ast::LiteralKind`), as exposed by the accessor. -/
inductive AstLiteralKind : Type
  | intNumber (suffix : Option String)
  | floatNumber (suffix : Option String)
  | byteString
  | str
  | byte
  | bool (b : Bool)
  | char
  deriving DecidableEq, Repr

/-- `impl From<ast::LiteralKind> for Literal`. -/
def Literal.ofKind (k : AstLiteralKind) : Literal :=
  match k with
  | .intNumber suffix => .int (suffix.bind fun it => BuiltinInt.fromSuffix it)
  | .floatNumber suffix => .float (suffix.bind fun it => BuiltinFloat.fromSuffix it)
  | .byteString => .byteString
  | .str => .str
  | .byte => .int (some .u8)
  | .bool val => .bool val
  | .char => .char

/-- Binary operator payload pieces (`ArithOp`). -/
inductive ArithOp : Type
  | add | mul | sub | div | rem | shl | shr | bitXor | bitOr | bitAnd
  deriving DecidableEq, Repr

/-- `LogicOp`. -/
inductive LogicOp : Type
  | orOp | andOp
  deriving DecidableEq, Repr

/-- `Ordering` as used by comparison operators. -/
inductive CmpOrdering : Type
  | less | greater
  deriving DecidableEq, Repr

/-- `CmpOp`. -/
inductive CmpOp : Type
  | eq (negated : Bool)
  | ord (ordering : CmpOrdering) (strict : Bool)
  deriving DecidableEq, Repr

/-- IR binary operators (`BinaryOp`). -/
inductive BinaryOp : Type
  | logicOp (op : LogicOp)
  | cmpOp (op : CmpOp)
  | arithOp (op : ArithOp)
  | assignment (op : Option ArithOp)
  deriving DecidableEq, Repr

/-- Syntax binary operators (`ast::BinOp`). -/
inductive AstBinOp : Type
  | booleanOr | booleanAnd | equalityTest | negatedEqualityTest
  | lesserEqualTest | greaterEqualTest | lesserTest | greaterTest
  | addition | multiplication | subtraction | division | remainder
  | leftShift | rightShift | bitwiseXor | bitwiseOr | bitwiseAnd
  | assignment | addAssign | divAssign | mulAssign | remAssign
  | shlAssign | shrAssign | subAssign | bitOrAssign | bitAndAssign
  | bitXorAssign
  deriving DecidableEq, Repr

/-- `impl From<ast::BinOp> for BinaryOp`. -/
def BinaryOp.ofAst (op : AstBinOp) : BinaryOp :=
  match op with
  | .booleanOr => .logicOp .orOp
  | .booleanAnd => .logicOp .andOp
  | .equalityTest => .cmpOp (.eq false)
  | .negatedEqualityTest => .cmpOp (.eq true)
  | .lesserEqualTest => .cmpOp (.ord .less false)
  | .greaterEqualTest => .cmpOp (.ord .greater false)
  | .lesserTest => .cmpOp (.ord .less true)
  | .greaterTest => .cmpOp (.ord .greater true)
  | .addition => .arithOp .add
  | .multiplication => .arithOp .mul
  | .subtraction => .arithOp .sub
  | .division => .arithOp .div
  | .remainder => .arithOp .rem
  | .leftShift => .arithOp .shl
  | .rightShift => .arithOp .shr
  | .bitwiseXor => .arithOp .bitXor
  | .bitwiseOr => .arithOp .bitOr
  | .bitwiseAnd => .arithOp .bitAnd
  | .assignment => .assignment none
  | .addAssign => .assignment (some .add)
  | .divAssign => .assignment (some .div)
  | .mulAssign => .assignment (some .mul)
  | .remAssign => .assignment (some .rem)
  | .shlAssign => .assignment (some .shl)
  | .shrAssign => .assignment (some .shr)
  | .subAssign => .assignment (some .sub)
  | .bitOrAssign => .assignment (some .bitOr)
  | .bitAndAssign => .assignment (some .bitAnd)
  | .bitXorAssign => .assignment (some .bitXor)

/-- Prefix (unary) operators, passed through unchanged from syntax. -/
inductive PrefixOp : Type
  | deref | not | neg
  deriving DecidableEq, Repr

/-- Range operators, passed through unchanged from syntax. -/
inductive RangeOp : Type
  | inclusive | exclusive
  deriving DecidableEq, Repr

/-- Reference/binding mutability (`Mutability`). -/
inductive Mutability : Type
  | shared | mut
  deriving DecidableEq, Repr

/-- `Mutability::from_mutable`. -/
def Mutability.fromMutable (m : Bool) : Mutability :=
  if m then .mut else .shared

/-- Binding annotations on identifier patterns (`BindingAnnotation`). -/
inductive BindingAnnotation : Type
  | unannotated | mutable | ref | refMut
  deriving DecidableEq, Repr

/-- Modelled from the spec: `BindingAnnotation::new` combines the `mut` and
`ref` tokens (declared outside the lowering file). -/
def BindingAnnotation.new (isMut isRef : Bool) : BindingAnnotation :=
  if isRef then (if isMut then .refMut else .ref)
  else (if isMut then .mutable else .unannotated)

/-- Type references; the translation `TypeRef::from_ast` lives outside the
lowering file and is modelled as an uninterpreted injection from raw type
syntax (represented by a numeric handle). -/
inductive TypeRef : Type
  | fromAst (raw : Nat)
  | error
  deriving DecidableEq, Repr

/-- Raw type-reference syntax nodes, opaque handles. -/
abbrev AstTypeRef := Nat

/-- `TypeRef::from_ast`. -/
def TypeRef.ofAst (t : AstTypeRef) : TypeRef := .fromAst t

/-- `TypeRef::from_ast_opt`: an absent type annotation becomes the error
type reference (modelled from the spec; module absent from the lowering
file). -/
def TypeRef.ofAstOpt (t : Option AstTypeRef) : TypeRef :=
  match t with
  | some t => TypeRef.ofAst t
  | none => .error

/-- Generic-argument payloads of method calls; parsed outside the lowering
file, modelled as opaque handles. -/
abbrev GenericArgs := Nat

/-- Raw type-argument-list syntax, opaque handle. -/
abbrev AstTypeArgList := Nat

/-- Structure shapes (`StructKind`): record `{}`, tuple `()`, or unit. -/
inductive StructKind : Type
  | record | tuple | unit
  deriving DecidableEq, Repr

/-- Algebraic-data-type ids (`AdtId`). -/
inductive AdtId : Type
  | structId (s : Nat)
  | enumId (e : Nat)
  | unionId (u : Nat)
  deriving DecidableEq, Repr

/-- Module-level definition ids (`ModuleDefId`), the possible results of the
value-namespace resolution query. -/
inductive ModuleDefId : Type
  | moduleId (m : Nat)
  | functionId (f : Nat)
  | adtId (a : AdtId)
  | enumVariantId (v : Nat)
  | constId (c : Nat)
  | staticId (s : Nat)
  | traitId (t : Nat)
  | typeAliasId (t : Nat)
  | builtinType (b : Nat)
  deriving DecidableEq, Repr

/-- Shadow-mode selector passed to the resolution query
(`BuiltinShadowMode`). -/
inductive BuiltinShadowMode : Type
  | normal | other
  deriving DecidableEq, Repr

/-- Macro definition kinds (`MacroDefKind`): only declarative definitions are
registered by this pass. -/
inductive MacroDefKind : Type
  | declarative
  deriving DecidableEq, Repr

/-- Macro definition descriptors (`MacroDefId`). -/
structure MacroDefId where
  krate : Option Nat
  astId : Option Nat
  kind : MacroDefKind
  deriving DecidableEq, Repr

/-- Item visibility.  Modelled from the spec: the lowering pass only ever
records the fully public visibility. -/
inductive Visibility : Type
  | public
  | moduleVis (m : Nat)
  deriving DecidableEq, Repr

/-- Modelled from the spec: a resolved item reference plus the visibility it
was registered with (`PerNs::from_def`). -/
structure PerNs where
  def_ : ModuleDefId
  vis : Visibility
  deriving DecidableEq, Repr

/-- `PerNs::from_def`. -/
def PerNs.fromDef (d : ModuleDefId) (v : Visibility) : PerNs := ⟨d, v⟩

/-- Per-body item scope: named entries, anonymous definition registrations,
and the legacy-macro table. -/
structure ItemScope where
  entries : List (Name × PerNs)
  defs : List ModuleDefId
  legacyMacros : List (Name × MacroDefId)
  deriving DecidableEq, Repr

def ItemScope.empty : ItemScope := ⟨[], [], []⟩

/-- `ItemScope::push_res`. -/
def ItemScope.pushRes (s : ItemScope) (n : Name) (p : PerNs) : ItemScope :=
  { s with entries := (n, p) :: s.entries }

/-- `ItemScope::define_def`. -/
def ItemScope.defineDef (s : ItemScope) (d : ModuleDefId) : ItemScope :=
  { s with defs := d :: s.defs }

/-- `ItemScope::define_legacy_macro` (registration of a `macro_rules!`
definition under its name). -/
def ItemScope.defineLegacyMac (s : ItemScope) (n : Name) (m : MacroDefId) : ItemScope :=
  { s with legacyMacros := (n, m) :: s.legacyMacros }

/-- One lowered record-literal field: name plus value-expression id
(`RecordLitField`). -/
structure RecordLitField where
  name : Name
  expr : ExprId
  deriving DecidableEq, Repr

/-- One lowered match arm (`MatchArm`). -/
structure MatchArm where
  pat : PatId
  expr : ExprId
  guard : Option ExprId
  deriving DecidableEq, Repr

/-- Block statements (`Statement`). -/
inductive Statement : Type
  | letStmt (pat : PatId) (typeRef : Option TypeRef) (initializer : Option ExprId)
  | exprStmt (expr : ExprId)
  deriving DecidableEq, Repr

/-- Array construction payload (`Array`). -/
inductive ArrayKind : Type
  | elementList (exprs : List ExprId)
  | repeated (initializer : ExprId) (repeatCount : ExprId)
  deriving DecidableEq, Repr

/-- IR expression nodes (`Expr`): a tagged variant over arena-relative child
ids.  Modelled from the spec's data model; the variant payloads mirror the
constructors used by the lowering file. -/
inductive Expr : Type
  | missing
  | path (p : Path)
  | ifE (condition : ExprId) (thenBranch : ExprId) (elseBranch : Option ExprId)
  | tryBlock (body : ExprId)
  | block (statements : List Statement) (tail : Option ExprId)
  | loopE (body : ExprId)
  | whileE (condition : ExprId) (body : ExprId)
  | forE (iterable : ExprId) (pat : PatId) (body : ExprId)
  | call (callee : ExprId) (args : List ExprId)
  | methodCall (receiver : ExprId) (methodName : Name) (args : List ExprId)
      (genericArgs : Option GenericArgs)
  | matchE (expr : ExprId) (arms : List MatchArm)
  | continueE
  | breakE (expr : Option ExprId)
  | returnE (expr : Option ExprId)
  | recordLit (path : Option Path) (fields : List RecordLitField) (spread : Option ExprId)
  | field (expr : ExprId) (name : Name)
  | await (expr : ExprId)
  | tryE (expr : ExprId)
  | cast (expr : ExprId) (typeRef : TypeRef)
  | ref (expr : ExprId) (mutability : Mutability)
  | unaryOp (expr : ExprId) (op : PrefixOp)
  | lambda (args : List PatId) (argTypes : List (Option TypeRef))
      (retType : Option TypeRef) (body : ExprId)
  | binaryOp (lhs : ExprId) (rhs : ExprId) (op : Option BinaryOp)
  | tuple (exprs : List ExprId)
  | box (expr : ExprId)
  | array (kind : ArrayKind)
  | lit (l : Literal)
  | index (base : ExprId) (idx : ExprId)
  | range (lhs : Option ExprId) (rhs : Option ExprId) (rangeType : RangeOp)
  deriving DecidableEq, Repr

/-- One lowered record-pattern field (`RecordFieldPat`). -/
structure RecordFieldPat where
  name : Name
  pat : PatId
  deriving DecidableEq, Repr

/-- IR pattern nodes (`Pat`).  Note that the wildcard (`wild`) and the
placeholder (`missing`) are distinct variants. -/
inductive Pat : Type
  | missing
  | wild
  | bind (name : Name) (mode : BindingAnnotation) (subpat : Option PatId)
  | tupleStruct (path : Option Path) (args : List PatId)
  | ref (pat : PatId) (mutability : Mutability)
  | path (p : Path)
  | orP (pats : List PatId)
  | tuple (args : List PatId)
  | record (path : Option Path) (args : List RecordFieldPat)
  | slice (front : List PatId) (sliceRest : Option PatId) (back : List PatId)
  | litP (expr : ExprId)
  deriving DecidableEq, Repr

/-- The lowered body: both arenas (modelled as append-only lists indexed by
id), the parameter pattern ids, the root expression id and the item scope. -/
structure Body where
  exprs : List Expr
  pats : List Pat
  params : List PatId
  bodyExpr : ExprId
  itemScope : ItemScope
  deriving DecidableEq, Repr

deriving instance DecidableEq for Except
deriving instance Repr for Except

/-- The bidirectional source map.  The maps are modelled as association
lists where insertion conses a binding onto the front; lookup finds the most
recent binding, giving the hash maps' last-write-wins behaviour. -/
structure BodySourceMap where
  exprMap : List (ExprSource × ExprId)
  exprMapBack : List (ExprId × Except Synthetic ExprSource)
  patMap : List (PatSource × PatId)
  patMapBack : List (PatId × Except Synthetic PatSource)
  fieldMap : List ((ExprId × Nat) × Nat)
  expansions : List (InFile Nat × FileId)
  deriving DecidableEq, Repr

def BodySourceMap.empty : BodySourceMap := ⟨[], [], [], [], [], []⟩

/-- Association-list lookup used to read the maps: first (most recent)
binding wins. -/
def lookupA {α β : Type} [DecidableEq α] (k : α) : List (α × β) → Option β
  | [] => none
  | (a, b) :: t => if a = k then some b else lookupA k t

/-- Number of bindings present for a key (used to state that backward maps
hold exactly one entry per allocated id). -/
def countKey {α β : Type} [DecidableEq α] (k : α) : List (α × β) → Nat
  | [] => 0
  | (a, _) :: t => (if a = k then 1 else 0) + countKey k t

@[simp] theorem lookupA_nil {α β : Type} [DecidableEq α] (k : α) :
    lookupA (β := β) k [] = none := rfl

@[simp] theorem lookupA_cons {α β : Type} [DecidableEq α] (k a : α) (b : β)
    (t : List (α × β)) :
    lookupA k ((a, b) :: t) = if a = k then some b else lookupA k t := rfl

@[simp] theorem countKey_nil {α β : Type} [DecidableEq α] (k : α) :
    countKey (β := β) k [] = 0 := rfl

@[simp] theorem countKey_cons {α β : Type} [DecidableEq α] (k a : α) (b : β)
    (t : List (α × β)) :
    countKey k ((a, b) :: t) = (if a = k then 1 else 0) + countKey k t := rfl

/-- The mutable state threaded through lowering: the body under
construction, its source map, and the expander's current file identity
(which changes under macro expansion and is restored by the expansion
mark). -/
structure LowerState where
  body : Body
  sourceMap : BodySourceMap
  currentFileId : FileId
  deriving DecidableEq, Repr

/-- The lowering computation monad: explicit state passing with a panic
channel (`expect`/`panic!` in the source aborts the whole lowering). -/
def M (α : Type) : Type := LowerState → Except String (α × LowerState)

def M.pure {α : Type} (a : α) : M α := fun s => .ok (a, s)

def M.bind {α β : Type} (m : M α) (f : α → M β) : M β := fun s =>
  match m s with
  | .ok (a, s') => f a s'
  | .error e => .error e

instance : Monad M where
  pure := M.pure
  bind := M.bind

/-- Abort lowering with a panic message (models `expect`). -/
def M.panic {α : Type} (msg : String) : M α := fun _ => .error msg

@[simp] theorem M.bind_def {α β : Type} (m : M α) (f : α → M β) (s : LowerState) :
    (m >>= f) s = match m s with
      | .ok (a, s') => f a s'
      | .error e => .error e := rfl

@[simp] theorem M.pure_def {α : Type} (a : α) (s : LowerState) :
    (Pure.pure (f := M) a) s = .ok (a, s) := rfl

@[simp] theorem M.panic_def {α : Type} (msg : String) (s : LowerState) :
    (M.panic (α := α) msg) s = .error msg := rfl

/-- Raw path syntax nodes (`ast::Path`), opaque handles fed to the
expander's path parser. -/
abbrev AstPath := Nat

/-- Attribute sets attached to a syntax node (`Attrs`), opaque handles fed
to the configuration check. -/
abbrev Attrs := Nat

/-- Crate configuration options (`CfgOptions`), opaque handle. -/
abbrev CfgOptions := Nat

/-- A literal syntax node: its stable pointer and its kind. -/
structure AstLiteral where
  ptr : Nat
  kind : AstLiteralKind
  deriving DecidableEq, Repr

/-- Local items that can appear at the head of a block.  The recognized item
kinds carry their stable ast id, their declared name, and their declared
visibility (which the collector ignores); the skipped kinds carry nothing
the collector reads. -/
inductive AstItem : Type
  | fnDef (astId : Nat) (name : Option Name) (declaredVis : Option Visibility)
  | typeAliasDef (astId : Nat) (name : Option Name) (declaredVis : Option Visibility)
  | constDef (astId : Nat) (name : Option Name) (declaredVis : Option Visibility)
  | staticDef (astId : Nat) (name : Option Name) (declaredVis : Option Visibility)
  | structDef (astId : Nat) (name : Option Name) (declaredVis : Option Visibility)
  | enumDef (astId : Nat) (name : Option Name) (declaredVis : Option Visibility)
  | unionDef (astId : Nat) (name : Option Name) (declaredVis : Option Visibility)
  | traitDef (astId : Nat) (name : Option Name) (declaredVis : Option Visibility)
  | externBlock
  | implDef
  | useItem
  | externCrateItem
  | moduleItem
  | macroCallItem
  deriving Repr

/-!
The concrete syntax tree, as seen through the accessor interface the
lowering consumes.  Every node records its stable pointer (`AstPtr`,
modelled as a number); kind-specific children are exposed as the optional /
list-valued fields the accessors return.  A macro-call node carries the
answer the external expander would give for it (`none` = expansion fails;
`some (file, tree)` = expansion succeeds, switching the current file
identity to `file` and producing the syntax tree `tree`).
-/

mutual

inductive AstExpr : Type
  | ifExpr (ptr : Nat) (condition : Option AstCondition)
      (thenBranch : Option AstBlockExpr) (elseBranch : Option AstElseBranch)
  | tryBlockExpr (ptr : Nat) (body : Option AstBlockExpr)
  | blockExpr (b : AstBlockExpr)
  | loopExpr (ptr : Nat) (loopBody : Option AstBlockExpr)
  | whileExpr (ptr : Nat) (condition : Option AstCondition) (loopBody : Option AstBlockExpr)
  | forExpr (ptr : Nat) (pat : Option AstPat) (iterable : Option AstExpr)
      (loopBody : Option AstBlockExpr)
  | callExpr (ptr : Nat) (callee : Option AstExpr) (argList : Option (List AstExpr))
  | methodCallExpr (ptr : Nat) (receiver : Option AstExpr) (nameRef : Option Name)
      (typeArgList : Option AstTypeArgList) (argList : Option (List AstExpr))
  | matchExpr (ptr : Nat) (scrutinee : Option AstExpr) (armList : Option (List AstMatchArm))
  | pathExpr (ptr : Nat) (path : Option AstPath)
  | continueExpr (ptr : Nat)
  | breakExpr (ptr : Nat) (expr : Option AstExpr)
  | parenExpr (ptr : Nat) (expr : Option AstExpr)
  | returnExpr (ptr : Nat) (expr : Option AstExpr)
  | recordLitE (ptr : Nat) (path : Option AstPath) (fieldList : Option AstRecordFieldList)
  | fieldExpr (ptr : Nat) (expr : Option AstExpr) (fieldAccess : Option Name)
  | awaitExpr (ptr : Nat) (expr : Option AstExpr)
  | tryExpr (ptr : Nat) (expr : Option AstExpr)
  | castExpr (ptr : Nat) (expr : Option AstExpr) (typeRef : Option AstTypeRef)
  | refExpr (ptr : Nat) (expr : Option AstExpr) (isMut : Bool)
  | prefixOpExpr (ptr : Nat) (expr : Option AstExpr) (opKind : Option PrefixOp)
  | lambdaExpr (ptr : Nat) (paramList : Option (List AstParam))
      (retType : Option (Option AstTypeRef)) (body : Option AstExpr)
  | binExpr (ptr : Nat) (lhs : Option AstExpr) (rhs : Option AstExpr) (opKind : Option AstBinOp)
  | tupleExpr (ptr : Nat) (exprs : List AstExpr)
  | boxExpr (ptr : Nat) (expr : Option AstExpr)
  | arrayExpr (ptr : Nat) (kind : AstArrayKind)
  | literalE (ptr : Nat) (kind : AstLiteralKind)
  | indexExpr (ptr : Nat) (base : Option AstExpr) (idx : Option AstExpr)
  | rangeExpr (ptr : Nat) (start : Option AstExpr) (stop : Option AstExpr)
      (opKind : Option RangeOp)
  | macroCallE (ptr : Nat) (astId : Nat) (macroRulesName : Option Name)
      (expansion : Option (FileId × AstExpr))
  | labelExpr (ptr : Nat)

inductive AstCondition : Type
  | mk (pat : Option AstPat) (expr : Option AstExpr)

inductive AstElseBranch : Type
  | blockBranch (b : AstBlockExpr)
  | ifBranch (e : AstExpr)

inductive AstBlockExpr : Type
  | mk (ptr : Nat) (blk : Option AstBlock)

inductive AstBlock : Type
  | mk (items : List AstItem) (statements : List AstStmt) (tailExpr : Option AstExpr)

inductive AstStmt : Type
  | letStmt (pat : Option AstPat) (ascribedType : Option AstTypeRef)
      (initializer : Option AstExpr)
  | exprStmt (expr : Option AstExpr)

inductive AstMatchArm : Type
  | mk (pat : Option AstPat) (guard : Option AstMatchGuard) (expr : Option AstExpr)

inductive AstMatchGuard : Type
  | mk (expr : Option AstExpr)

inductive AstRecordFieldList : Type
  | mk (fields : List AstRecordField) (spread : Option AstExpr)

inductive AstRecordField : Type
  | mk (ptr : Nat) (attrs : Attrs) (nameRef : Option Name) (expr : Option AstExpr)

inductive AstParam : Type
  | mk (pat : Option AstPat) (ascribedType : Option AstTypeRef)

inductive AstArrayKind : Type
  | elementList (exprs : List AstExpr)
  | repeated (initializer : Option AstExpr) (repeatArg : Option AstExpr)

inductive AstPat : Type
  | bindPat (ptr : Nat) (name : Option Name) (isMut isRef : Bool) (sub : Option AstPat)
  | tupleStructPat (ptr : Nat) (path : Option AstPath) (args : List AstPat)
  | refPat (ptr : Nat) (pat : Option AstPat) (isMut : Bool)
  | pathPat (ptr : Nat) (path : Option AstPath)
  | orPat (ptr : Nat) (pats : List AstPat)
  | parenPat (ptr : Nat) (pat : Option AstPat)
  | tuplePat (ptr : Nat) (args : List AstPat)
  | placeholderPat (ptr : Nat)
  | dotDotPat (ptr : Nat)
  | recordPat (ptr : Nat) (path : Option AstPath) (fieldPatList : Option AstRecordFieldPatList)
  | slicePat (ptr : Nat) (front : List AstPat) (sliceRest : Option AstPat) (back : List AstPat)
  | literalPat (ptr : Nat) (literal : Option AstLiteral)
  | boxPat (ptr : Nat)
  | rangePat (ptr : Nat)
  | macroPat (ptr : Nat)

inductive AstRecordFieldPatList : Type
  | mk (bindPats : List AstPat) (fieldPats : List AstRecordFieldPat)

inductive AstRecordFieldPat : Type
  | mk (name : Option Name) (pat : Option AstPat)

end

/-- The stable pointer of a pattern node (`AstPtr::new(&pat)`). -/
def AstPat.ptrOf : AstPat → Nat
  | .bindPat ptr _ _ _ _ => ptr
  | .tupleStructPat ptr _ _ => ptr
  | .refPat ptr _ _ => ptr
  | .pathPat ptr _ => ptr
  | .orPat ptr _ => ptr
  | .parenPat ptr _ => ptr
  | .tuplePat ptr _ => ptr
  | .placeholderPat ptr => ptr
  | .dotDotPat ptr => ptr
  | .recordPat ptr _ _ => ptr
  | .slicePat ptr _ _ _ => ptr
  | .literalPat ptr _ => ptr
  | .boxPat ptr => ptr
  | .rangePat ptr => ptr
  | .macroPat ptr => ptr

/-- `bind_pat.name()`: the name accessor of a bind-pat node.  The
`bind_pats` accessor of a record-pattern field list only ever yields
bind-pat nodes, so the other arms are outside the accessor contract. -/
def AstPat.bindPatName : AstPat → Option Name
  | .bindPat _ name _ _ _ => name
  | _ => none

/-- The self parameter of a parameter list, exposing its stable pointer. -/
structure AstSelfParam where
  ptr : Nat
  deriving DecidableEq, Repr

/-- A parameter list (`ast::ParamList`). -/
structure AstParamList where
  selfParam : Option AstSelfParam
  params : List AstParam

/-- The external collaborators, read-only during one lowering run: the
definition database and the immutable parts of the expander (its module,
crate, and path parser), plus interning of item locations. -/
structure Env where
  parsePath : AstPath → Option Path
  resolveTakeValues : Path → BuiltinShadowMode → Option ModuleDefId
  structKind : Nat → StructKind
  isCfgEnabled : Attrs → CfgOptions → Bool
  cfgOptions : CfgOptions
  krate : Nat
  genericArgsFromAst : AstTypeArgList → Option GenericArgs
  internFn : Nat → Nat
  internTypeAlias : Nat → Nat
  internConst : Nat → Nat
  internStatic : Nat → Nat
  internStruct : Nat → Nat
  internEnum : Nat → Nat
  internUnion : Nat → Nat
  internTrait : Nat → Nat

/-! State primitives, mirroring the `ExprCollector` helper methods. -/

/-- `expander.to_source(ptr)` for expression pointers: pair the pointer with
the expander's current file identity. -/
def toSourceE (ptr : ExprPtr) : M ExprSource := fun s =>
  .ok (⟨s.currentFileId, ptr⟩, s)

/-- `expander.to_source(ptr)` for pattern pointers. -/
def toSourceP (ptr : PatPtr) : M PatSource := fun s =>
  .ok (⟨s.currentFileId, ptr⟩, s)

/-- `expander.to_source(AstPtr::new(&e))` for a macro-call node. -/
def toMacroSource (ptr : Nat) : M (InFile Nat) := fun s =>
  .ok (⟨s.currentFileId, ptr⟩, s)

/-- `make_expr`: allocate into the expression arena and record the backward
source-map entry for the fresh id. -/
def makeExpr (e : Expr) (src : Except Synthetic ExprSource) : M ExprId := fun s =>
  let id := s.body.exprs.length
  .ok (id,
    { s with
      body := { s.body with exprs := s.body.exprs ++ [e] }
      sourceMap :=
        { s.sourceMap with exprMapBack := (id, src) :: s.sourceMap.exprMapBack } })

/-- Record a forward source-map entry for an expression. -/
def insertExprMapM (src : ExprSource) (id : ExprId) : M Unit := fun s =>
  .ok ((),
    { s with sourceMap := { s.sourceMap with exprMap := (src, id) :: s.sourceMap.exprMap } })

/-- `alloc_expr`: allocate with a real expression pointer and record both
map directions. -/
def allocExpr (e : Expr) (ptr : Nat) : M ExprId := do
  let src ← toSourceE (.exprP ptr)
  let id ← makeExpr e (.ok src)
  insertExprMapM src id
  pure id

/-- `alloc_expr_desugared`: allocate with the synthetic marker only. -/
def allocExprDesugared (e : Expr) : M ExprId :=
  makeExpr e (.error .mk)

/-- `alloc_expr_field_shorthand`: allocate with a record-field pointer. -/
def allocExprFieldShorthand (e : Expr) (ptr : Nat) : M ExprId := do
  let src ← toSourceE (.fieldP ptr)
  let id ← makeExpr e (.ok src)
  insertExprMapM src id
  pure id

/-- `empty_block`: a sourceless empty block expression. -/
def emptyBlock : M ExprId :=
  allocExprDesugared (.block [] none)

/-- `missing_expr`: a sourceless missing placeholder expression. -/
def missingExpr : M ExprId :=
  allocExprDesugared .missing

/-- `make_pat`. -/
def makePat (p : Pat) (src : Except Synthetic PatSource) : M PatId := fun s =>
  let id := s.body.pats.length
  .ok (id,
    { s with
      body := { s.body with pats := s.body.pats ++ [p] }
      sourceMap :=
        { s.sourceMap with patMapBack := (id, src) :: s.sourceMap.patMapBack } })

/-- Record a forward source-map entry for a pattern. -/
def insertPatMapM (src : PatSource) (id : PatId) : M Unit := fun s =>
  .ok ((),
    { s with sourceMap := { s.sourceMap with patMap := (src, id) :: s.sourceMap.patMap } })

/-- `alloc_pat`. -/
def allocPat (p : Pat) (ptr : PatPtr) : M PatId := do
  let src ← toSourceP ptr
  let id ← makePat p (.ok src)
  insertPatMapM src id
  pure id

/-- `missing_pat`: a sourceless missing placeholder pattern. -/
def missingPat : M PatId :=
  makePat .missing (.error .mk)

/-- Record a field-position entry `(record-literal id, ordinal) → field
pointer`. -/
def insertFieldMapM (id : ExprId) (i : Nat) (ptr : Nat) : M Unit := fun s =>
  .ok ((),
    { s with
      sourceMap := { s.sourceMap with fieldMap := ((id, i), ptr) :: s.sourceMap.fieldMap } })

/-- Record that a macro-call location expanded into the given file. -/
def insertExpansionM (src : InFile Nat) (f : FileId) : M Unit := fun s =>
  .ok ((),
    { s with sourceMap := { s.sourceMap with expansions := (src, f) :: s.sourceMap.expansions } })

/-- Read the expander's current file identity. -/
def getFileId : M FileId := fun s => .ok (s.currentFileId, s)

/-- Set the expander's current file identity (macro-expansion entry, and
restoration through the rollback mark on exit). -/
def setFileId (f : FileId) : M Unit := fun s =>
  .ok ((), { s with currentFileId := f })

/-- `item_scope.define_def`. -/
def defineDefM (d : ModuleDefId) : M Unit := fun s =>
  .ok ((), { s with body := { s.body with itemScope := s.body.itemScope.defineDef d } })

/-- `item_scope.push_res`. -/
def pushResM (n : Name) (p : PerNs) : M Unit := fun s =>
  .ok ((), { s with body := { s.body with itemScope := s.body.itemScope.pushRes n p } })

/-- `item_scope.define_legacy_macro`. -/
def defineLegacyMacM (n : Name) (m : MacroDefId) : M Unit := fun s =>
  .ok ((), { s with body := { s.body with itemScope := s.body.itemScope.defineLegacyMac n m } })

/-- `self.body.params.push(...)`. -/
def pushParam (p : PatId) : M Unit := fun s =>
  .ok ((), { s with body := { s.body with params := s.body.params ++ [p] } })

/-- `self.body.body_expr = ...`. -/
def setBodyExpr (e : ExprId) : M Unit := fun s =>
  .ok ((), { s with body := { s.body with bodyExpr := e } })

/-- Read out the finished body and source map. -/
def getResult : M (Body × BodySourceMap) := fun s =>
  .ok ((s.body, s.sourceMap), s)

/-- The `(def, name)` pair `collect_block_items` computes per item, `none`
for the explicitly skipped item kinds. -/
def itemDefAndName (env : Env) : AstItem → Option (ModuleDefId × Option Name)
  | .fnDef astId name _ => some (.functionId (env.internFn astId), name)
  | .typeAliasDef astId name _ => some (.typeAliasId (env.internTypeAlias astId), name)
  | .constDef astId name _ => some (.constId (env.internConst astId), name)
  | .staticDef astId name _ => some (.staticId (env.internStatic astId), name)
  | .structDef astId name _ => some (.adtId (.structId (env.internStruct astId)), name)
  | .enumDef astId name _ => some (.adtId (.enumId (env.internEnum astId)), name)
  | .unionDef astId name _ => some (.adtId (.unionId (env.internUnion astId)), name)
  | .traitDef astId name _ => some (.traitId (env.internTrait astId), name)
  | .externBlock => none
  | .implDef => none
  | .useItem => none
  | .externCrateItem => none
  | .moduleItem => none
  | .macroCallItem => none

/-- `collect_block_items`: register each recognized direct item child of a
block into the body's item scope; named items are additionally pushed into
the name table, always with the fully public visibility. -/
def collectBlockItemsM (env : Env) : List AstItem → M Unit
  | [] => M.pure ()
  | item :: rest =>
    match itemDefAndName env item with
    | none => collectBlockItemsM env rest
    | some (d, name) => do
        defineDefM d
        match name with
        | some n => pushResM n (PerNs.fromDef d .public)
        | none => M.pure ()
        collectBlockItemsM env rest

/-- The field-position loop after a record literal is allocated
(`for (i, ptr) in field_ptrs.into_iter().enumerate()`). -/
def insertFieldPtrs (id : ExprId) (i : Nat) : List Nat → M Unit
  | [] => M.pure ()
  | ptr :: rest => do
      insertFieldMapM id i ptr
      insertFieldPtrs id (i + 1) rest

mutual

/-- `ExprCollector::collect_expr`: lower one syntax expression to exactly
one expression id. -/
def collectExpr (env : Env) : AstExpr → M ExprId
  | .ifExpr ptr condition thenB elseB => do
      let thenBranch ← collectBlockOpt env thenB
      let elseBranch ← match elseB with
        | none => M.pure none
        | some (.blockBranch it) => do
            let b ← collectBlock env it
            M.pure (some b)
        | some (.ifBranch elif) => do
            let b ← collectExpr env elif
            M.pure (some b)
      match condition with
      | none => do
          let c ← missingExpr
          allocExpr (.ifE c thenBranch elseBranch) ptr
      | some (.mk condPat condExpr) =>
        match condPat with
        | none => do
            let c ← collectExprOpt env condExpr
            allocExpr (.ifE c thenBranch elseBranch) ptr
        | some pat => do
            let p ← collectPat env pat
            let matchExpr ← collectExprOpt env condExpr
            let placeholderPat ← missingPat
            let elseArm ← match elseBranch with
              | some b => M.pure b
              | none => emptyBlock
            allocExpr (.matchE matchExpr
              [⟨p, thenBranch, none⟩, ⟨placeholderPat, elseArm, none⟩]) ptr
  | .tryBlockExpr ptr body => do
      let b ← collectBlockOpt env body
      allocExpr (.tryBlock b) ptr
  | .blockExpr b => collectBlock env b
  | .loopExpr ptr loopBody => do
      let b ← collectBlockOpt env loopBody
      allocExpr (.loopE b) ptr
  | .whileExpr ptr condition loopBody => do
      let body ← collectBlockOpt env loopBody
      match condition with
      | none => do
          let c ← missingExpr
          allocExpr (.whileE c body) ptr
      | some (.mk condPat condExpr) =>
        match condPat with
        | none => do
            let c ← collectExprOpt env condExpr
            allocExpr (.whileE c body) ptr
        | some pat => do
            let p ← collectPat env pat
            let matchExpr ← collectExprOpt env condExpr
            let placeholderPat ← missingPat
            let breakId ← allocExprDesugared (.breakE none)
            let matchId ← allocExprDesugared (.matchE matchExpr
              [⟨p, body, none⟩, ⟨placeholderPat, breakId, none⟩])
            allocExpr (.loopE matchId) ptr
  | .forExpr ptr pat iterable loopBody => do
      let iterableId ← collectExprOpt env iterable
      let patId ← collectPatOpt env pat
      let body ← collectBlockOpt env loopBody
      allocExpr (.forE iterableId patId body) ptr
  | .callExpr ptr callee argList => do
      let calleeId ← collectExprOpt env callee
      let args ← match argList with
        | some args => collectExprList env args
        | none => M.pure []
      allocExpr (.call calleeId args) ptr
  | .methodCallExpr ptr receiver nameRef typeArgList argList => do
      let receiverId ← collectExprOpt env receiver
      let args ← match argList with
        | some args => collectExprList env args
        | none => M.pure []
      let methodName := nameRef.getD Name.missing
      let genericArgs := typeArgList.bind env.genericArgsFromAst
      allocExpr (.methodCall receiverId methodName args genericArgs) ptr
  | .matchExpr ptr scrutinee armList => do
      let e ← collectExprOpt env scrutinee
      let arms ← match armList with
        | some arms => collectMatchArms env arms
        | none => M.pure []
      allocExpr (.matchE e arms) ptr
  | .pathExpr ptr path => do
      let e := match path.bind env.parsePath with
        | some p => Expr.path p
        | none => Expr.missing
      allocExpr e ptr
  | .continueExpr ptr => allocExpr .continueE ptr
  | .breakExpr ptr expr => do
      let e ← match expr with
        | some e => do
            let x ← collectExpr env e
            M.pure (some x)
        | none => M.pure none
      allocExpr (.breakE e) ptr
  | .parenExpr ptr expr => do
      let inner ← collectExprOpt env expr
      let src ← toSourceE (.exprP ptr)
      insertExprMapM src inner
      M.pure inner
  | .returnExpr ptr expr => do
      let e ← match expr with
        | some e => do
            let x ← collectExpr env e
            M.pure (some x)
        | none => M.pure none
      allocExpr (.returnE e) ptr
  | .recordLitE ptr path fieldList => do
      let p := path.bind env.parsePath
      match fieldList with
      | some (.mk fields spreadE) => do
          let fp ← collectRecordFields env fields
          let spread ← match spreadE with
            | some sp => do
                let x ← collectExpr env sp
                M.pure (some x)
            | none => M.pure none
          let res ← allocExpr (.recordLit p fp.1 spread) ptr
          insertFieldPtrs res 0 fp.2
          M.pure res
      | none => do
          let res ← allocExpr (.recordLit p [] none) ptr
          M.pure res
  | .fieldExpr ptr expr fieldAccess => do
      let e ← collectExprOpt env expr
      let name := match fieldAccess with
        | some kind => kind
        | none => Name.missing
      allocExpr (.field e name) ptr
  | .awaitExpr ptr expr => do
      let e ← collectExprOpt env expr
      allocExpr (.await e) ptr
  | .tryExpr ptr expr => do
      let e ← collectExprOpt env expr
      allocExpr (.tryE e) ptr
  | .castExpr ptr expr typeRef => do
      let e ← collectExprOpt env expr
      allocExpr (.cast e (TypeRef.ofAstOpt typeRef)) ptr
  | .refExpr ptr expr isMut => do
      let e ← collectExprOpt env expr
      allocExpr (.ref e (Mutability.fromMutable isMut)) ptr
  | .prefixOpExpr ptr expr opKind => do
      let e ← collectExprOpt env expr
      match opKind with
      | some op => allocExpr (.unaryOp e op) ptr
      | none => allocExpr .missing ptr
  | .lambdaExpr ptr paramList retType body => do
      let ap ← match paramList with
        | some pl => collectLambdaParams env pl
        | none => M.pure ([], [])
      let ret := match retType with
        | some (some t) => some (TypeRef.ofAst t)
        | _ => none
      let b ← collectExprOpt env body
      allocExpr (.lambda ap.1 ap.2 ret b) ptr
  | .binExpr ptr lhs rhs opKind => do
      let l ← collectExprOpt env lhs
      let r ← collectExprOpt env rhs
      let op := opKind.map BinaryOp.ofAst
      allocExpr (.binaryOp l r op) ptr
  | .tupleExpr ptr exprs => do
      let es ← collectExprList env exprs
      allocExpr (.tuple es) ptr
  | .boxExpr ptr expr => do
      let e ← collectExprOpt env expr
      allocExpr (.box e) ptr
  | .arrayExpr ptr kind =>
    match kind with
    | .elementList exprs => do
        let es ← collectExprList env exprs
        allocExpr (.array (.elementList es)) ptr
    | .repeated initializer repeatArg => do
        let i ← collectExprOpt env initializer
        let r ← collectExprOpt env repeatArg
        allocExpr (.array (.repeated i r)) ptr
  | .literalE ptr kind => allocExpr (.lit (Literal.ofKind kind)) ptr
  | .indexExpr ptr base idx => do
      let b ← collectExprOpt env base
      let i ← collectExprOpt env idx
      allocExpr (.index b i) ptr
  | .rangeExpr ptr start stop opKind => do
      let l ← match start with
        | some e => do
            let x ← collectExpr env e
            M.pure (some x)
        | none => M.pure none
      let r ← match stop with
        | some e => do
            let x ← collectExpr env e
            M.pure (some x)
        | none => M.pure none
      match opKind with
      | some rangeType => allocExpr (.range l r rangeType) ptr
      | none => allocExpr .missing ptr
  | .macroCallE ptr astId macroRulesName expansion =>
    match macroRulesName with
    | some name => do
        let mac : MacroDefId := ⟨some env.krate, some astId, .declarative⟩
        defineLegacyMacM name mac
        allocExpr .missing ptr
    | none => do
        let macroCallSrc ← toMacroSource ptr
        match expansion with
        | some (expFile, expTree) => do
            let oldFile ← getFileId
            setFileId expFile
            insertExpansionM macroCallSrc expFile
            let id ← collectExpr env expTree
            setFileId oldFile
            M.pure id
        | none => allocExpr .missing ptr
  | .labelExpr ptr => allocExpr .missing ptr

/-- `collect_expr_opt`: an absent expression becomes a fresh missing
placeholder. -/
def collectExprOpt (env : Env) : Option AstExpr → M ExprId
  | some e => collectExpr env e
  | none => missingExpr

/-- `collect_block`. -/
def collectBlock (env : Env) : AstBlockExpr → M ExprId
  | .mk ptr blk =>
    match blk with
    | none => allocExpr .missing ptr
    | some (.mk items statements tailExpr) => do
        collectBlockItemsM env items
        let stmts ← collectStmts env statements
        let tail ← match tailExpr with
          | some e => do
              let x ← collectExpr env e
              M.pure (some x)
          | none => M.pure none
        allocExpr (.block stmts tail) ptr

/-- `collect_block_opt`. -/
def collectBlockOpt (env : Env) : Option AstBlockExpr → M ExprId
  | some b => collectBlock env b
  | none => missingExpr

/-- The statement loop of `collect_block`. -/
def collectStmts (env : Env) : List AstStmt → M (List Statement)
  | [] => M.pure []
  | .letStmt pat ascribedType initializer :: rest => do
      let p ← collectPatOpt env pat
      let typeRef := ascribedType.map TypeRef.ofAst
      let init ← match initializer with
        | some e => do
            let x ← collectExpr env e
            M.pure (some x)
        | none => M.pure none
      let rest' ← collectStmts env rest
      M.pure (.letStmt p typeRef init :: rest')
  | .exprStmt expr :: rest => do
      let e ← collectExprOpt env expr
      let rest' ← collectStmts env rest
      M.pure (.exprStmt e :: rest')

/-- The argument-list loop (`arg_list.args().map(collect_expr)`). -/
def collectExprList (env : Env) : List AstExpr → M (List ExprId)
  | [] => M.pure []
  | e :: rest => do
      let x ← collectExpr env e
      let xs ← collectExprList env rest
      M.pure (x :: xs)

/-- The match-arm loop. -/
def collectMatchArms (env : Env) : List AstMatchArm → M (List MatchArm)
  | [] => M.pure []
  | .mk pat guard expr :: rest => do
      let p ← collectPatOpt env pat
      let e ← collectExprOpt env expr
      let g ← match guard with
        | some (.mk guardExpr) =>
          match guardExpr with
          | some ge => do
              let x ← collectExpr env ge
              M.pure (some x)
          | none => M.pure none
        | none => M.pure none
      let rest' ← collectMatchArms env rest
      M.pure (⟨p, e, g⟩ :: rest')

/-- The record-literal field loop: the pointer of every syntactic field is
pushed (`inspect`), then the configuration filter decides whether the field
is lowered and kept. -/
def collectRecordFields (env : Env) :
    List AstRecordField → M (List RecordLitField × List Nat)
  | [] => M.pure ([], [])
  | .mk fptr attrs nameRef fexpr :: rest =>
    if env.isCfgEnabled attrs env.cfgOptions then do
      let name := nameRef.getD Name.missing
      let e ← match fexpr with
        | some e => collectExpr env e
        | none =>
          match nameRef with
          | some nr => allocExprFieldShorthand (.path (Path.fromNameRef nr)) fptr
          | none => missingExpr
      let fp ← collectRecordFields env rest
      M.pure (⟨name, e⟩ :: fp.1, fptr :: fp.2)
    else do
      let fp ← collectRecordFields env rest
      M.pure (fp.1, fptr :: fp.2)

/-- The closure parameter loop of the lambda arm. -/
def collectLambdaParams (env : Env) :
    List AstParam → M (List PatId × List (Option TypeRef))
  | [] => M.pure ([], [])
  | .mk pat ascribedType :: rest => do
      let p ← collectPatOpt env pat
      let typeRef := ascribedType.map TypeRef.ofAst
      let ap ← collectLambdaParams env rest
      M.pure (p :: ap.1, typeRef :: ap.2)

/-- `ExprCollector::collect_pat`: lower one syntax pattern to exactly one
pattern id.  A parenthesized pattern returns the inner pattern's id
directly; every other form computes its `Pat` value and allocates it at the
pattern node's own pointer (the shared `alloc_pat(pattern, ptr)` tail of the
source function, inlined into each arm). -/
def collectPat (env : Env) : AstPat → M PatId
  | .bindPat ptr name isMut isRef sub => do
      let nm := name.getD Name.missing
      let annotation := BindingAnnotation.new isMut isRef
      let subpat ← match sub with
        | some sp => do
            let x ← collectPat env sp
            M.pure (some x)
        | none => M.pure none
      let pattern :=
        if annotation = BindingAnnotation.unannotated ∧ subpat = none then
          match env.resolveTakeValues (Path.fromName nm) .other with
          | some (.constId _) => Pat.path (Path.fromName nm)
          | some (.enumVariantId _) => Pat.path (Path.fromName nm)
          | some (.adtId (.structId s)) =>
            if env.structKind s ≠ StructKind.record then
              Pat.path (Path.fromName nm)
            else
              Pat.bind nm annotation subpat
          | _ => Pat.bind nm annotation subpat
        else
          Pat.bind nm annotation subpat
      allocPat pattern (.patP ptr)
  | .tupleStructPat ptr path args => do
      let p := path.bind env.parsePath
      let argIds ← collectPatList env args
      allocPat (.tupleStruct p argIds) (.patP ptr)
  | .refPat ptr pat isMut => do
      let patId ← collectPatOpt env pat
      allocPat (.ref patId (Mutability.fromMutable isMut)) (.patP ptr)
  | .pathPat ptr path => do
      let pattern := match path.bind env.parsePath with
        | some p => Pat.path p
        | none => Pat.missing
      allocPat pattern (.patP ptr)
  | .orPat ptr pats => do
      let patIds ← collectPatList env pats
      allocPat (.orP patIds) (.patP ptr)
  | .parenPat _ pat => collectPatOpt env pat
  | .tuplePat ptr args => do
      let argIds ← collectPatList env args
      allocPat (.tuple argIds) (.patP ptr)
  | .placeholderPat ptr => allocPat .wild (.patP ptr)
  | .dotDotPat ptr => allocPat .wild (.patP ptr)
  | .recordPat ptr path fieldPatList => do
      let p := path.bind env.parsePath
      match fieldPatList with
      | none => M.panic "every struct should have a field list"
      | some (.mk bindPats fieldPats) => do
          let fields ← collectBindPats env bindPats
          let more ← collectFieldPats env fieldPats
          allocPat (.record p (fields ++ more)) (.patP ptr)
  | .slicePat ptr front sliceRest back => do
      let frontIds ← collectPatList env front
      let sliceId ← match sliceRest with
        | some sp => do
            let x ← collectPat env sp
            M.pure (some x)
        | none => M.pure none
      let backIds ← collectPatList env back
      allocPat (.slice frontIds sliceId backIds) (.patP ptr)
  | .literalPat ptr lit =>
    match lit with
    | some astLit => do
        let exprId ← allocExpr (.lit (Literal.ofKind astLit.kind)) astLit.ptr
        allocPat (.litP exprId) (.patP ptr)
    | none => allocPat .missing (.patP ptr)
  | .boxPat ptr => allocPat .missing (.patP ptr)
  | .rangePat ptr => allocPat .missing (.patP ptr)
  | .macroPat ptr => allocPat .missing (.patP ptr)

/-- `collect_pat_opt`: an absent pattern becomes a fresh missing
placeholder. -/
def collectPatOpt (env : Env) : Option AstPat → M PatId
  | some p => collectPat env p
  | none => missingPat

/-- The pattern-list loop (`p.args().map(collect_pat)`). -/
def collectPatList (env : Env) : List AstPat → M (List PatId)
  | [] => M.pure []
  | p :: rest => do
      let x ← collectPat env p
      let xs ← collectPatList env rest
      M.pure (x :: xs)

/-- The shorthand (`bind_pats`) loop of the record-pattern arm: each
bind-pat child is cast back to a pattern and collected; the field entry is
kept only when the child has a name (the pattern stays allocated either
way). -/
def collectBindPats (env : Env) : List AstPat → M (List RecordFieldPat)
  | [] => M.pure []
  | bp :: rest => do
      let patId ← collectPat env bp
      match bp.bindPatName with
      | some n => do
          let fs ← collectBindPats env rest
          M.pure (⟨n, patId⟩ :: fs)
      | none => collectBindPats env rest

/-- The explicit (`record_field_pats`) loop of the record-pattern arm: a
field without a pattern is skipped before lowering; the field entry is kept
only when the field has a name. -/
def collectFieldPats (env : Env) : List AstRecordFieldPat → M (List RecordFieldPat)
  | [] => M.pure []
  | .mk fname fpat :: rest =>
    match fpat with
    | none => collectFieldPats env rest
    | some astPat => do
        let patId ← collectPat env astPat
        match fname with
        | some n => do
            let fs ← collectFieldPats env rest
            M.pure (⟨n, patId⟩ :: fs)
        | none => collectFieldPats env rest

end

/-- The parameter loop of `ExprCollector::collect`: a parameter with no
pattern is skipped (`continue`); one with a pattern is lowered and its id
pushed onto the body's parameter sequence. -/
def collectParams (env : Env) : List AstParam → M Unit
  | [] => M.pure ()
  | .mk pat _ :: rest =>
    match pat with
    | none => collectParams env rest
    | some p => do
        let paramPat ← collectPat env p
        pushParam paramPat
        collectParams env rest

/-- `ExprCollector::collect`: the lowering entry body — the optional self
parameter, the parameter loop, then the body expression. -/
def collect (env : Env) (paramList : Option AstParamList) (body : Option AstExpr) :
    M (Body × BodySourceMap) := do
  match paramList with
  | some pl => do
      match pl.selfParam with
      | some selfParam => do
          let paramPat ← allocPat (.bind "self" .unannotated none) (.selfP selfParam.ptr)
          pushParam paramPat
      | none => M.pure ()
      collectParams env pl.params
  | none => M.pure ()
  let b ← collectExprOpt env body
  setBodyExpr b
  getResult

/-- The initial collector state built by `lower`: empty arenas, empty
source map, the dummy root id, and the expander's starting file identity. -/
def initState (fileId : FileId) : LowerState :=
  { body :=
      { exprs := []
        pats := []
        params := []
        bodyExpr := dummyExprId
        itemScope := ItemScope.empty }
    sourceMap := BodySourceMap.empty
    currentFileId := fileId }

/-- `lower`: the module entry point — run the collector from the fresh
state and return the populated body and source map (or the panic message,
when lowering aborts). -/
def lower (env : Env) (fileId : FileId) (params : Option AstParamList)
    (body : Option AstExpr) : Except String (Body × BodySourceMap) :=
  match collect env params body (initState fileId) with
  | .ok (r, _) => .ok r
  | .error e => .error e

/-! Proof infrastructure: totality of the backward maps, and the frame
facts (arenas only append, parameters and the file identity survive any
sub-lowering) that hold between the entry and exit state of every
collector operation. -/

/-- The backward maps are total and exact: an id has exactly one backward
entry when it is allocated, and none otherwise. -/
def Inv (s : LowerState) : Prop :=
  (∀ i, countKey i s.sourceMap.exprMapBack =
    if i < s.body.exprs.length then 1 else 0) ∧
  (∀ i, countKey i s.sourceMap.patMapBack =
    if i < s.body.pats.length then 1 else 0)

/-- State extension: what one collector operation may do to the state. -/
structure StateExt (s s' : LowerState) : Prop where
  exprs : ∃ d, s'.body.exprs = s.body.exprs ++ d
  pats : ∃ d, s'.body.pats = s.body.pats ++ d
  params : s'.body.params = s.body.params
  fileId : s'.currentFileId = s.currentFileId
  exprMapBack : ∃ d, s'.sourceMap.exprMapBack = d ++ s.sourceMap.exprMapBack
  patMapBack : ∃ d, s'.sourceMap.patMapBack = d ++ s.sourceMap.patMapBack
  inv : Inv s → Inv s'

theorem StateExt.refl (s : LowerState) : StateExt s s :=
  ⟨⟨[], by simp⟩, ⟨[], by simp⟩, rfl, rfl, ⟨[], by simp⟩, ⟨[], by simp⟩, id⟩

theorem StateExt.trans {s t u : LowerState} (h1 : StateExt s t) (h2 : StateExt t u) :
    StateExt s u := by
  obtain ⟨⟨d1, e1⟩, ⟨d2, e2⟩, p1, f1, ⟨d3, e3⟩, ⟨d4, e4⟩, i1⟩ := h1
  obtain ⟨⟨g1, k1⟩, ⟨g2, k2⟩, p2, f2, ⟨g3, k3⟩, ⟨g4, k4⟩, i2⟩ := h2
  refine ⟨⟨d1 ++ g1, ?_⟩, ⟨d2 ++ g2, ?_⟩, p2.trans p1, f2.trans f1,
    ⟨g3 ++ d3, ?_⟩, ⟨g4 ++ d4, ?_⟩, fun h => i2 (i1 h)⟩
  · rw [k1, e1, List.append_assoc]
  · rw [k2, e2, List.append_assoc]
  · rw [k3, e3, List.append_assoc]
  · rw [k4, e4, List.append_assoc]

/-- An operation preserves the frame facts on every successful run. -/
def PresM {α : Type} (m : M α) : Prop :=
  ∀ s a s', m s = .ok (a, s') → StateExt s s'

theorem presM_pure {α : Type} (a : α) : PresM (M.pure a) := by
  intro s b s' h
  cases h
  exact StateExt.refl _

theorem presM_bind {α β : Type} {m : M α} {k : α → M β}
    (h1 : PresM m) (h2 : ∀ a, PresM (k a)) : PresM (m >>= k) := by
  intro s b s' h
  simp only [Bind.bind, M.bind] at h
  cases hm : m s with
  | error e => rw [hm] at h; cases h
  | ok v =>
      obtain ⟨a, t⟩ := v
      rw [hm] at h
      exact (h1 s a t hm).trans (h2 a t b s' h)

theorem presM_panic {α : Type} (msg : String) : PresM (M.panic (α := α) msg) := by
  intro s b s' h
  cases h

/-- Splitting a successful bind into its two stages. -/
theorem M.bind_eq_ok {α β : Type} {m : M α} {k : α → M β} {s s' : LowerState}
    {b : β} :
    (m >>= k) s = .ok (b, s') ↔
      ∃ a t, m s = .ok (a, t) ∧ k a t = .ok (b, s') := by
  simp only [Bind.bind, M.bind]
  cases hm : m s with
  | error e =>
      constructor
      · intro h; cases h
      · rintro ⟨a, t, h1, _⟩; cases h1
  | ok v =>
      obtain ⟨a, t⟩ := v
      constructor
      · intro h; exact ⟨a, t, rfl, h⟩
      · rintro ⟨a', t', h1, h2⟩
        cases h1
        exact h2

theorem countKey_append {α β : Type} [DecidableEq α] (k : α) (l1 l2 : List (α × β)) :
    countKey k (l1 ++ l2) = countKey k l1 + countKey k l2 := by
  induction l1 with
  | nil => simp
  | cons hd tl ih =>
      obtain ⟨a, b⟩ := hd
      simp only [List.cons_append, countKey_cons, ih]
      omega

theorem presM_toSourceE (ptr : ExprPtr) : PresM (toSourceE ptr) := by
  intro s a s' h
  cases h
  exact StateExt.refl _

theorem presM_toSourceP (ptr : PatPtr) : PresM (toSourceP ptr) := by
  intro s a s' h
  cases h
  exact StateExt.refl _

theorem presM_toMacroSource (ptr : Nat) : PresM (toMacroSource ptr) := by
  intro s a s' h
  cases h
  exact StateExt.refl _

theorem presM_getFileId : PresM getFileId := by
  intro s a s' h
  cases h
  exact StateExt.refl _

theorem countIf (n i : Nat) :
    (if n = i then 1 else 0) + (if i < n then 1 else 0) =
      if i < n + (0 + 1) then 1 else 0 := by
  rcases Nat.lt_trichotomy i n with h | h | h
  · rw [if_neg (by omega), if_pos h, if_pos (by omega)]
  · rw [if_pos (by omega), if_neg (by omega), if_pos (by omega)]
  · rw [if_neg (by omega), if_neg (by omega), if_neg (by omega)]

theorem presM_makeExpr (e : Expr) (src : Except Synthetic ExprSource) :
    PresM (makeExpr e src) := by
  intro s a s' h
  cases h
  refine ⟨⟨[e], rfl⟩, ⟨[], by simp⟩, rfl, rfl,
    ⟨[(s.body.exprs.length, src)], rfl⟩, ⟨[], by simp⟩, ?_⟩
  rintro ⟨h1, h2⟩
  constructor
  · intro i
    have hold := h1 i
    simp only [countKey_cons]
    rw [hold]
    simp only [List.length_append, List.length_cons, List.length_nil]
    exact countIf _ _
  · intro i
    exact h2 i

theorem presM_makePat (p : Pat) (src : Except Synthetic PatSource) :
    PresM (makePat p src) := by
  intro s a s' h
  cases h
  refine ⟨⟨[], by simp⟩, ⟨[p], rfl⟩, rfl, rfl, ⟨[], by simp⟩,
    ⟨[(s.body.pats.length, src)], rfl⟩, ?_⟩
  rintro ⟨h1, h2⟩
  constructor
  · intro i
    exact h1 i
  · intro i
    have hold := h2 i
    simp only [countKey_cons]
    rw [hold]
    simp only [List.length_append, List.length_cons, List.length_nil]
    exact countIf _ _

theorem presM_insertExprMapM (src : ExprSource) (id : ExprId) :
    PresM (insertExprMapM src id) := by
  intro s a s' h
  cases h
  exact ⟨⟨[], by simp⟩, ⟨[], by simp⟩, rfl, rfl, ⟨[], by simp⟩, ⟨[], by simp⟩,
    fun h => h⟩

theorem presM_insertPatMapM (src : PatSource) (id : PatId) :
    PresM (insertPatMapM src id) := by
  intro s a s' h
  cases h
  exact ⟨⟨[], by simp⟩, ⟨[], by simp⟩, rfl, rfl, ⟨[], by simp⟩, ⟨[], by simp⟩,
    fun h => h⟩

theorem presM_insertFieldMapM (id : ExprId) (i : Nat) (ptr : Nat) :
    PresM (insertFieldMapM id i ptr) := by
  intro s a s' h
  cases h
  exact ⟨⟨[], by simp⟩, ⟨[], by simp⟩, rfl, rfl, ⟨[], by simp⟩, ⟨[], by simp⟩,
    fun h => h⟩

theorem presM_insertExpansionM (src : InFile Nat) (f : FileId) :
    PresM (insertExpansionM src f) := by
  intro s a s' h
  cases h
  exact ⟨⟨[], by simp⟩, ⟨[], by simp⟩, rfl, rfl, ⟨[], by simp⟩, ⟨[], by simp⟩,
    fun h => h⟩

theorem presM_defineDefM (d : ModuleDefId) : PresM (defineDefM d) := by
  intro s a s' h
  cases h
  exact ⟨⟨[], by simp⟩, ⟨[], by simp⟩, rfl, rfl, ⟨[], by simp⟩, ⟨[], by simp⟩,
    fun h => h⟩

theorem presM_pushResM (n : Name) (p : PerNs) : PresM (pushResM n p) := by
  intro s a s' h
  cases h
  exact ⟨⟨[], by simp⟩, ⟨[], by simp⟩, rfl, rfl, ⟨[], by simp⟩, ⟨[], by simp⟩,
    fun h => h⟩

theorem presM_defineLegacyMacM (n : Name) (m : MacroDefId) :
    PresM (defineLegacyMacM n m) := by
  intro s a s' h
  cases h
  exact ⟨⟨[], by simp⟩, ⟨[], by simp⟩, rfl, rfl, ⟨[], by simp⟩, ⟨[], by simp⟩,
    fun h => h⟩

theorem presM_allocExpr (e : Expr) (ptr : Nat) : PresM (allocExpr e ptr) := by
  unfold allocExpr
  exact presM_bind (presM_toSourceE _) fun src =>
    presM_bind (presM_makeExpr _ _) fun id =>
      presM_bind (presM_insertExprMapM _ _) fun _ => presM_pure _

theorem presM_allocExprDesugared (e : Expr) : PresM (allocExprDesugared e) :=
  presM_makeExpr e (.error .mk)

theorem presM_allocExprFieldShorthand (e : Expr) (ptr : Nat) :
    PresM (allocExprFieldShorthand e ptr) := by
  unfold allocExprFieldShorthand
  exact presM_bind (presM_toSourceE _) fun src =>
    presM_bind (presM_makeExpr _ _) fun id =>
      presM_bind (presM_insertExprMapM _ _) fun _ => presM_pure _

theorem presM_emptyBlock : PresM emptyBlock :=
  presM_allocExprDesugared _

theorem presM_missingExpr : PresM missingExpr :=
  presM_allocExprDesugared _

theorem presM_allocPat (p : Pat) (ptr : PatPtr) : PresM (allocPat p ptr) := by
  unfold allocPat
  exact presM_bind (presM_toSourceP _) fun src =>
    presM_bind (presM_makePat _ _) fun id =>
      presM_bind (presM_insertPatMapM _ _) fun _ => presM_pure _

theorem presM_missingPat : PresM missingPat :=
  presM_makePat _ _

theorem presM_collectBlockItemsM (env : Env) (items : List AstItem) :
    PresM (collectBlockItemsM env items) := by
  induction items with
  | nil => exact presM_pure _
  | cons item rest ih =>
      rw [collectBlockItemsM]
      cases itemDefAndName env item with
      | none => exact ih
      | some dn =>
          obtain ⟨d, name⟩ := dn
          refine presM_bind (presM_defineDefM _) fun _ => ?_
          cases name with
          | some n => exact presM_bind (presM_pushResM _ _) fun _ => ih
          | none => exact presM_bind (presM_pure _) fun _ => ih

theorem presM_insertFieldPtrs (id : ExprId) (i : Nat) (ptrs : List Nat) :
    PresM (insertFieldPtrs id i ptrs) := by
  induction ptrs generalizing i with
  | nil => exact presM_pure _
  | cons p rest ih =>
      rw [insertFieldPtrs]
      exact presM_bind (presM_insertFieldMapM _ _ _) fun _ => ih _

theorem presM_ite {α : Type} {c : Prop} [Decidable c] {m1 m2 : M α}
    (h1 : PresM m1) (h2 : PresM m2) : PresM (if c then m1 else m2) := by
  by_cases hc : c
  · simpa [hc] using h1
  · simpa [hc] using h2

/-- Transport the frame facts along a definitional unfolding: lets the
monad-law-normalized reading of a collector arm stand in for its compiled
form. -/
theorem PresM_defeq {α : Type} {m2 m1 : M α} (hp : PresM m2) (h : m2 = m1) :
    PresM m1 := by
  rw [← h]
  exact hp

mutual

theorem presM_collectExpr (env : Env) (e : AstExpr) : PresM (collectExpr env e) := by
  cases e with
  | ifExpr ptr condition thenB elseB =>
      cases elseB with
      | none =>
          cases condition with
          | none =>
              exact PresM_defeq (presM_bind (presM_collectBlockOpt env thenB) fun t =>
                presM_bind presM_missingExpr fun c =>
                  presM_allocExpr (.ifE c t none) ptr) rfl
          | some c =>
              cases c with
              | mk condPat ce =>
                  cases condPat with
                  | none =>
                      exact PresM_defeq (presM_bind (presM_collectBlockOpt env thenB) fun t =>
                        presM_bind (presM_collectExprOpt env ce) fun cc => presM_allocExpr _ _) rfl
                  | some pat =>
                      exact PresM_defeq (presM_bind (presM_collectBlockOpt env thenB) fun t =>
                        presM_bind (presM_collectPat env pat) fun pp =>
                          presM_bind (presM_collectExprOpt env ce) fun me =>
                            presM_bind presM_missingPat fun ph =>
                              presM_bind presM_emptyBlock fun ea => presM_allocExpr _ _) rfl
      | some eb =>
          cases eb with
          | blockBranch it =>
              cases condition with
              | none =>
                  exact PresM_defeq (presM_bind (presM_collectBlockOpt env thenB) fun t =>
                    presM_bind (presM_collectBlock env it) fun b =>
                      presM_bind presM_missingExpr fun c =>
                        presM_allocExpr (.ifE c t (some b)) ptr) rfl
              | some c =>
                  cases c with
                  | mk condPat ce =>
                      cases condPat with
                      | none =>
                          exact PresM_defeq (presM_bind (presM_collectBlockOpt env thenB) fun t =>
                            presM_bind (presM_collectBlock env it) fun b =>
                              presM_bind (presM_collectExprOpt env ce) fun cc =>
                                presM_allocExpr _ _) rfl
                      | some pat =>
                          exact PresM_defeq (presM_bind (presM_collectBlockOpt env thenB) fun t =>
                            presM_bind (presM_collectBlock env it) fun b =>
                              presM_bind (presM_collectPat env pat) fun pp =>
                                presM_bind (presM_collectExprOpt env ce) fun me =>
                                  presM_bind presM_missingPat fun ph => presM_allocExpr _ _) rfl
          | ifBranch elif =>
              cases condition with
              | none =>
                  exact PresM_defeq (presM_bind (presM_collectBlockOpt env thenB) fun t =>
                    presM_bind (presM_collectExpr env elif) fun b =>
                      presM_bind presM_missingExpr fun c =>
                        presM_allocExpr (.ifE c t (some b)) ptr) rfl
              | some c =>
                  cases c with
                  | mk condPat ce =>
                      cases condPat with
                      | none =>
                          exact PresM_defeq (presM_bind (presM_collectBlockOpt env thenB) fun t =>
                            presM_bind (presM_collectExpr env elif) fun b =>
                              presM_bind (presM_collectExprOpt env ce) fun cc =>
                                presM_allocExpr _ _) rfl
                      | some pat =>
                          exact PresM_defeq (presM_bind (presM_collectBlockOpt env thenB) fun t =>
                            presM_bind (presM_collectExpr env elif) fun b =>
                              presM_bind (presM_collectPat env pat) fun pp =>
                                presM_bind (presM_collectExprOpt env ce) fun me =>
                                  presM_bind presM_missingPat fun ph => presM_allocExpr _ _) rfl
  | tryBlockExpr ptr body =>
      exact presM_bind (presM_collectBlockOpt env body) fun b => presM_allocExpr _ _
  | blockExpr b => exact presM_collectBlock env b
  | loopExpr ptr loopBody =>
      exact presM_bind (presM_collectBlockOpt env loopBody) fun b => presM_allocExpr _ _
  | whileExpr ptr condition loopBody =>
      cases condition with
      | none =>
          exact presM_bind (presM_collectBlockOpt env loopBody) fun body =>
            presM_bind presM_missingExpr fun c => presM_allocExpr _ _
      | some c =>
          cases c with
          | mk condPat ce =>
              cases condPat with
              | none =>
                  exact presM_bind (presM_collectBlockOpt env loopBody) fun body =>
                    presM_bind (presM_collectExprOpt env ce) fun cc => presM_allocExpr _ _
              | some pat =>
                  exact presM_bind (presM_collectBlockOpt env loopBody) fun body =>
                    presM_bind (presM_collectPat env pat) fun pp =>
                      presM_bind (presM_collectExprOpt env ce) fun me =>
                        presM_bind presM_missingPat fun ph =>
                          presM_bind (presM_allocExprDesugared _) fun brk =>
                            presM_bind (presM_allocExprDesugared _) fun mid =>
                              presM_allocExpr _ _
  | forExpr ptr pat iterable loopBody =>
      exact presM_bind (presM_collectExprOpt env iterable) fun i =>
        presM_bind (presM_collectPatOpt env pat) fun pp =>
          presM_bind (presM_collectBlockOpt env loopBody) fun b => presM_allocExpr _ _
  | callExpr ptr callee argList =>
      cases argList with
      | some args =>
          exact presM_bind (presM_collectExprOpt env callee) fun c =>
            presM_bind (presM_collectExprList env args) fun xs => presM_allocExpr _ _
      | none =>
          exact presM_bind (presM_collectExprOpt env callee) fun c => presM_allocExpr _ _
  | methodCallExpr ptr receiver nameRef typeArgList argList =>
      cases argList with
      | some args =>
          exact presM_bind (presM_collectExprOpt env receiver) fun r =>
            presM_bind (presM_collectExprList env args) fun xs => presM_allocExpr _ _
      | none =>
          exact presM_bind (presM_collectExprOpt env receiver) fun r => presM_allocExpr _ _
  | matchExpr ptr scrutinee armList =>
      cases armList with
      | some arms =>
          exact presM_bind (presM_collectExprOpt env scrutinee) fun sc =>
            presM_bind (presM_collectMatchArms env arms) fun xs => presM_allocExpr _ _
      | none =>
          exact presM_bind (presM_collectExprOpt env scrutinee) fun sc => presM_allocExpr _ _
  | pathExpr ptr path => exact presM_allocExpr _ _
  | continueExpr ptr => exact presM_allocExpr _ _
  | breakExpr ptr expr =>
      cases expr with
      | some e =>
          exact presM_bind (presM_collectExpr env e) fun x => presM_allocExpr _ _
      | none => exact presM_allocExpr _ _
  | parenExpr ptr expr =>
      exact presM_bind (presM_collectExprOpt env expr) fun inner =>
        presM_bind (presM_toSourceE _) fun src =>
          presM_bind (presM_insertExprMapM _ _) fun u => presM_pure _
  | returnExpr ptr expr =>
      cases expr with
      | some e =>
          exact presM_bind (presM_collectExpr env e) fun x => presM_allocExpr _ _
      | none => exact presM_allocExpr _ _
  | recordLitE ptr path fieldList =>
      cases fieldList with
      | none => exact presM_bind (presM_allocExpr _ _) fun res => presM_pure _
      | some nfl =>
          cases nfl with
          | mk fields spreadE =>
              cases spreadE with
              | some sp =>
                  exact PresM_defeq (presM_bind (presM_collectRecordFields env fields) fun fp =>
                    presM_bind (presM_collectExpr env sp) fun x =>
                      presM_bind
                        (presM_allocExpr (.recordLit (path.bind env.parsePath) fp.1 (some x))
                          ptr) fun res =>
                        presM_bind (presM_insertFieldPtrs res 0 fp.2) fun u =>
                          presM_pure res) rfl
              | none =>
                  exact PresM_defeq (presM_bind (presM_collectRecordFields env fields) fun fp =>
                    presM_bind
                      (presM_allocExpr (.recordLit (path.bind env.parsePath) fp.1 none)
                        ptr) fun res =>
                      presM_bind (presM_insertFieldPtrs res 0 fp.2) fun u =>
                        presM_pure res) rfl
  | fieldExpr ptr expr fieldAccess =>
      exact presM_bind (presM_collectExprOpt env expr) fun e => presM_allocExpr _ _
  | awaitExpr ptr expr =>
      exact presM_bind (presM_collectExprOpt env expr) fun e => presM_allocExpr _ _
  | tryExpr ptr expr =>
      exact presM_bind (presM_collectExprOpt env expr) fun e => presM_allocExpr _ _
  | castExpr ptr expr typeRef =>
      exact presM_bind (presM_collectExprOpt env expr) fun e => presM_allocExpr _ _
  | refExpr ptr expr isMut =>
      exact presM_bind (presM_collectExprOpt env expr) fun e => presM_allocExpr _ _
  | prefixOpExpr ptr expr opKind =>
      cases opKind with
      | some op => exact presM_bind (presM_collectExprOpt env expr) fun e => presM_allocExpr _ _
      | none => exact presM_bind (presM_collectExprOpt env expr) fun e => presM_allocExpr _ _
  | lambdaExpr ptr paramList retType body =>
      cases paramList with
      | some pl =>
          exact PresM_defeq (presM_bind (presM_collectLambdaParams env pl) fun ap =>
            presM_bind (presM_collectExprOpt env body) fun b => presM_allocExpr _ _) rfl
      | none =>
          exact PresM_defeq (presM_bind (presM_collectExprOpt env body) fun b => presM_allocExpr _ _) rfl
  | binExpr ptr lhs rhs opKind =>
      exact presM_bind (presM_collectExprOpt env lhs) fun l =>
        presM_bind (presM_collectExprOpt env rhs) fun r => presM_allocExpr _ _
  | tupleExpr ptr exprs =>
      exact presM_bind (presM_collectExprList env exprs) fun es => presM_allocExpr _ _
  | boxExpr ptr expr =>
      exact presM_bind (presM_collectExprOpt env expr) fun e => presM_allocExpr _ _
  | arrayExpr ptr kind =>
      cases kind with
      | elementList exprs =>
          exact presM_bind (presM_collectExprList env exprs) fun es => presM_allocExpr _ _
      | repeated initializer repeatArg =>
          exact presM_bind (presM_collectExprOpt env initializer) fun i =>
            presM_bind (presM_collectExprOpt env repeatArg) fun r => presM_allocExpr _ _
  | literalE ptr kind => exact presM_allocExpr _ _
  | indexExpr ptr base idx =>
      exact presM_bind (presM_collectExprOpt env base) fun b =>
        presM_bind (presM_collectExprOpt env idx) fun i => presM_allocExpr _ _
  | rangeExpr ptr start stop opKind =>
      cases start with
      | some sl =>
          cases stop with
          | some sr =>
              cases opKind with
              | some rt =>
                  exact PresM_defeq (presM_bind (presM_collectExpr env sl) fun l =>
                    presM_bind (presM_collectExpr env sr) fun r => presM_allocExpr _ _) rfl
              | none =>
                  exact PresM_defeq (presM_bind (presM_collectExpr env sl) fun l =>
                    presM_bind (presM_collectExpr env sr) fun r => presM_allocExpr _ _) rfl
          | none =>
              cases opKind with
              | some rt =>
                  exact PresM_defeq (presM_bind (presM_collectExpr env sl) fun l => presM_allocExpr _ _) rfl
              | none =>
                  exact PresM_defeq (presM_bind (presM_collectExpr env sl) fun l => presM_allocExpr _ _) rfl
      | none =>
          cases stop with
          | some sr =>
              cases opKind with
              | some rt =>
                  exact PresM_defeq (presM_bind (presM_collectExpr env sr) fun r => presM_allocExpr _ _) rfl
              | none =>
                  exact PresM_defeq (presM_bind (presM_collectExpr env sr) fun r => presM_allocExpr _ _) rfl
          | none =>
              cases opKind with
              | some rt => exact presM_allocExpr _ _
              | none => exact presM_allocExpr _ _
  | macroCallE ptr astId macroRulesName expansion =>
      cases macroRulesName with
      | some name =>
          exact presM_bind (presM_defineLegacyMacM _ _) fun u => presM_allocExpr _ _
      | none =>
          cases expansion with
          | none =>
              exact presM_bind (presM_toMacroSource _) fun src => presM_allocExpr _ _
          | some fe =>
              obtain ⟨expFile, expTree⟩ := fe
              intro s a s' h
              have h' : ((toMacroSource ptr) >>= fun macroCallSrc =>
                  getFileId >>= fun oldFile =>
                    (setFileId expFile) >>= fun u1 =>
                      (insertExpansionM macroCallSrc expFile) >>= fun u2 =>
                        (collectExpr env expTree) >>= fun id =>
                          (setFileId oldFile) >>= fun u3 => M.pure id) s =
                  .ok (a, s') := h
              rw [M.bind_eq_ok] at h'
              obtain ⟨src, s1, h1, h'⟩ := h'
              rw [M.bind_eq_ok] at h'
              obtain ⟨oldFile, s2, h2, h'⟩ := h'
              rw [M.bind_eq_ok] at h'
              obtain ⟨u3, s3, h3, h'⟩ := h'
              rw [M.bind_eq_ok] at h'
              obtain ⟨u4, s4, h4, h'⟩ := h'
              rw [M.bind_eq_ok] at h'
              obtain ⟨id, s5, h5, h'⟩ := h'
              rw [M.bind_eq_ok] at h'
              obtain ⟨u6, s6, h6, h'⟩ := h'
              cases h1
              cases h2
              cases h3
              cases h4
              cases h6
              cases h'
              have hx := presM_collectExpr env expTree _ _ _ h5
              exact ⟨hx.exprs, hx.pats, hx.params, rfl,
                hx.exprMapBack, hx.patMapBack, hx.inv⟩
  | labelExpr ptr => exact presM_allocExpr _ _

theorem presM_collectExprOpt (env : Env) (oe : Option AstExpr) :
    PresM (collectExprOpt env oe) := by
  cases oe with
  | some e => exact presM_collectExpr env e
  | none => exact presM_missingExpr

theorem presM_collectBlock (env : Env) (b : AstBlockExpr) :
    PresM (collectBlock env b) := by
  cases b with
  | mk ptr blk =>
      cases blk with
      | none => exact presM_allocExpr _ _
      | some bb =>
          cases bb with
          | mk items statements tailExpr =>
              cases tailExpr with
              | some e =>
                  exact presM_bind (presM_collectBlockItemsM env items) fun u =>
                    presM_bind (presM_collectStmts env statements) fun ss =>
                      presM_bind (presM_collectExpr env e) fun x => presM_allocExpr _ _
              | none =>
                  exact presM_bind (presM_collectBlockItemsM env items) fun u =>
                    presM_bind (presM_collectStmts env statements) fun ss =>
                      presM_allocExpr _ _

theorem presM_collectBlockOpt (env : Env) (ob : Option AstBlockExpr) :
    PresM (collectBlockOpt env ob) := by
  cases ob with
  | some b => exact presM_collectBlock env b
  | none => exact presM_missingExpr

theorem presM_collectStmts (env : Env) (l : List AstStmt) :
    PresM (collectStmts env l) := by
  cases l with
  | nil => exact presM_pure _
  | cons hd rest =>
      cases hd with
      | letStmt pat ascribedType initializer =>
          cases initializer with
          | some e =>
              exact PresM_defeq (presM_bind (presM_collectPatOpt env pat) fun p =>
                presM_bind (presM_collectExpr env e) fun x =>
                  presM_bind (presM_collectStmts env rest) fun r =>
                    presM_pure
                      (Statement.letStmt p (ascribedType.map TypeRef.ofAst) (some x)
                        :: r)) rfl
          | none =>
              exact PresM_defeq (presM_bind (presM_collectPatOpt env pat) fun p =>
                presM_bind (presM_collectStmts env rest) fun r =>
                  presM_pure
                    (Statement.letStmt p (ascribedType.map TypeRef.ofAst) none
                      :: r)) rfl
      | exprStmt expr =>
          exact presM_bind (presM_collectExprOpt env expr) fun e =>
            presM_bind (presM_collectStmts env rest) fun r => presM_pure _

theorem presM_collectExprList (env : Env) (l : List AstExpr) :
    PresM (collectExprList env l) := by
  cases l with
  | nil => exact presM_pure _
  | cons e rest =>
      exact presM_bind (presM_collectExpr env e) fun x =>
        presM_bind (presM_collectExprList env rest) fun xs => presM_pure _

theorem presM_collectMatchArms (env : Env) (l : List AstMatchArm) :
    PresM (collectMatchArms env l) := by
  cases l with
  | nil => exact presM_pure _
  | cons arm rest =>
      cases arm with
      | mk pat guard expr =>
          cases guard with
          | some gd =>
              cases gd with
              | mk guardExpr =>
                  cases guardExpr with
                  | some ge =>
                      exact PresM_defeq (presM_bind (presM_collectPatOpt env pat) fun p =>
                        presM_bind (presM_collectExprOpt env expr) fun e =>
                          presM_bind (presM_collectExpr env ge) fun g =>
                            presM_bind (presM_collectMatchArms env rest) fun r =>
                              presM_pure _) rfl
                  | none =>
                      exact PresM_defeq (presM_bind (presM_collectPatOpt env pat) fun p =>
                        presM_bind (presM_collectExprOpt env expr) fun e =>
                          presM_bind (presM_collectMatchArms env rest) fun r =>
                            presM_pure _) rfl
          | none =>
              exact PresM_defeq (presM_bind (presM_collectPatOpt env pat) fun p =>
                presM_bind (presM_collectExprOpt env expr) fun e =>
                  presM_bind (presM_collectMatchArms env rest) fun r => presM_pure _) rfl

theorem presM_collectRecordFields (env : Env) (l : List AstRecordField) :
    PresM (collectRecordFields env l) := by
  cases l with
  | nil => exact presM_pure _
  | cons fld rest =>
      cases fld with
      | mk fptr attrs nameRef fexpr =>
          cases fexpr with
          | some e =>
              exact presM_ite
                (presM_bind (presM_collectExpr env e) fun x =>
                  presM_bind (presM_collectRecordFields env rest) fun fp => presM_pure _)
                (presM_bind (presM_collectRecordFields env rest) fun fp => presM_pure _)
          | none =>
              cases nameRef with
              | some nr =>
                  exact presM_ite
                    (presM_bind (presM_allocExprFieldShorthand _ _) fun x =>
                      presM_bind (presM_collectRecordFields env rest) fun fp =>
                        presM_pure _)
                    (presM_bind (presM_collectRecordFields env rest) fun fp => presM_pure _)
              | none =>
                  exact presM_ite
                    (presM_bind presM_missingExpr fun x =>
                      presM_bind (presM_collectRecordFields env rest) fun fp =>
                        presM_pure _)
                    (presM_bind (presM_collectRecordFields env rest) fun fp => presM_pure _)

theorem presM_collectLambdaParams (env : Env) (l : List AstParam) :
    PresM (collectLambdaParams env l) := by
  cases l with
  | nil => exact presM_pure _
  | cons p rest =>
      cases p with
      | mk pat ascribedType =>
          exact presM_bind (presM_collectPatOpt env pat) fun x =>
            presM_bind (presM_collectLambdaParams env rest) fun ap => presM_pure _

theorem presM_collectPat (env : Env) (p : AstPat) : PresM (collectPat env p) := by
  cases p with
  | bindPat ptr name isMut isRef sub =>
      cases sub with
      | some sp =>
          exact presM_bind (presM_collectPat env sp) fun x => presM_allocPat _ _
      | none => exact presM_allocPat _ _
  | tupleStructPat ptr path args =>
      exact presM_bind (presM_collectPatList env args) fun a => presM_allocPat _ _
  | refPat ptr pat isMut =>
      exact presM_bind (presM_collectPatOpt env pat) fun x => presM_allocPat _ _
  | pathPat ptr path => exact presM_allocPat _ _
  | orPat ptr pats =>
      exact presM_bind (presM_collectPatList env pats) fun x => presM_allocPat _ _
  | parenPat ptr pat => exact presM_collectPatOpt env pat
  | tuplePat ptr args =>
      exact presM_bind (presM_collectPatList env args) fun x => presM_allocPat _ _
  | placeholderPat ptr => exact presM_allocPat _ _
  | dotDotPat ptr => exact presM_allocPat _ _
  | recordPat ptr path fieldPatList =>
      cases fieldPatList with
      | none => exact presM_panic _
      | some fpl =>
          cases fpl with
          | mk bindPats fieldPats =>
              exact presM_bind (presM_collectBindPats env bindPats) fun fields =>
                presM_bind (presM_collectFieldPats env fieldPats) fun more =>
                  presM_allocPat _ _
  | slicePat ptr front sliceRest back =>
      cases sliceRest with
      | some sp =>
          exact PresM_defeq (presM_bind (presM_collectPatList env front) fun f =>
            presM_bind (presM_collectPat env sp) fun x =>
              presM_bind (presM_collectPatList env back) fun b =>
                presM_allocPat (.slice f (some x) b) (.patP ptr)) rfl
      | none =>
          exact PresM_defeq (presM_bind (presM_collectPatList env front) fun f =>
            presM_bind (presM_collectPatList env back) fun b =>
              presM_allocPat (.slice f none b) (.patP ptr)) rfl
  | literalPat ptr lit =>
      cases lit with
      | some astLit =>
          exact presM_bind (presM_allocExpr _ _) fun e => presM_allocPat _ _
      | none => exact presM_allocPat _ _
  | boxPat ptr => exact presM_allocPat _ _
  | rangePat ptr => exact presM_allocPat _ _
  | macroPat ptr => exact presM_allocPat _ _

theorem presM_collectPatOpt (env : Env) (op : Option AstPat) :
    PresM (collectPatOpt env op) := by
  cases op with
  | some p => exact presM_collectPat env p
  | none => exact presM_missingPat

theorem presM_collectPatList (env : Env) (l : List AstPat) :
    PresM (collectPatList env l) := by
  cases l with
  | nil => exact presM_pure _
  | cons p rest =>
      exact presM_bind (presM_collectPat env p) fun x =>
        presM_bind (presM_collectPatList env rest) fun xs => presM_pure _

theorem presM_collectBindPats (env : Env) (l : List AstPat) :
    PresM (collectBindPats env l) := by
  cases l with
  | nil => exact presM_pure _
  | cons bp rest =>
      cases bp with
      | bindPat ptr name isMut isRef sub =>
          cases name with
          | some n =>
              exact presM_bind (presM_collectPat env _) fun patId =>
                presM_bind (presM_collectBindPats env rest) fun fs => presM_pure _
          | none =>
              exact presM_bind (presM_collectPat env _) fun patId =>
                presM_collectBindPats env rest
      | tupleStructPat ptr path args =>
          exact presM_bind (presM_collectPat env _) fun patId =>
            presM_collectBindPats env rest
      | refPat ptr pat isMut =>
          exact presM_bind (presM_collectPat env _) fun patId =>
            presM_collectBindPats env rest
      | pathPat ptr path =>
          exact presM_bind (presM_collectPat env _) fun patId =>
            presM_collectBindPats env rest
      | orPat ptr pats =>
          exact presM_bind (presM_collectPat env _) fun patId =>
            presM_collectBindPats env rest
      | parenPat ptr pat =>
          exact presM_bind (presM_collectPat env _) fun patId =>
            presM_collectBindPats env rest
      | tuplePat ptr args =>
          exact presM_bind (presM_collectPat env _) fun patId =>
            presM_collectBindPats env rest
      | placeholderPat ptr =>
          exact presM_bind (presM_collectPat env _) fun patId =>
            presM_collectBindPats env rest
      | dotDotPat ptr =>
          exact presM_bind (presM_collectPat env _) fun patId =>
            presM_collectBindPats env rest
      | recordPat ptr path fieldPatList =>
          exact presM_bind (presM_collectPat env _) fun patId =>
            presM_collectBindPats env rest
      | slicePat ptr front sliceRest back =>
          exact presM_bind (presM_collectPat env _) fun patId =>
            presM_collectBindPats env rest
      | literalPat ptr lit =>
          exact presM_bind (presM_collectPat env _) fun patId =>
            presM_collectBindPats env rest
      | boxPat ptr =>
          exact presM_bind (presM_collectPat env _) fun patId =>
            presM_collectBindPats env rest
      | rangePat ptr =>
          exact presM_bind (presM_collectPat env _) fun patId =>
            presM_collectBindPats env rest
      | macroPat ptr =>
          exact presM_bind (presM_collectPat env _) fun patId =>
            presM_collectBindPats env rest

theorem presM_collectFieldPats (env : Env) (l : List AstRecordFieldPat) :
    PresM (collectFieldPats env l) := by
  cases l with
  | nil => exact presM_pure _
  | cons f rest =>
      cases f with
      | mk fname fpat =>
          cases fpat with
          | none => exact presM_collectFieldPats env rest
          | some astPat =>
              cases fname with
              | some n =>
                  exact presM_bind (presM_collectPat env astPat) fun patId =>
                    presM_bind (presM_collectFieldPats env rest) fun fs => presM_pure _
              | none =>
                  exact presM_bind (presM_collectPat env astPat) fun patId =>
                    presM_collectFieldPats env rest

end

/-! Projections for single-constructor syntax nodes, and explicit run
equations for the state primitives. -/

/-- The stable pointer of a record-literal field node. -/
def AstRecordField.ptrOf : AstRecordField → Nat
  | .mk ptr _ _ _ => ptr

/-- The attribute set of a record-literal field node. -/
def AstRecordField.attrsOf : AstRecordField → Attrs
  | .mk _ attrs _ _ => attrs

/-- The name reference of a record-literal field node. -/
def AstRecordField.nameRefOf : AstRecordField → Option Name
  | .mk _ _ nameRef _ => nameRef

/-- The pattern child of a parameter node (`param.pat()`). -/
def AstParam.patOf : AstParam → Option AstPat
  | .mk pat _ => pat

theorem missingExpr_run (s : LowerState) :
    missingExpr s = .ok (s.body.exprs.length,
      { s with
        body := { s.body with exprs := s.body.exprs ++ [.missing] }
        sourceMap := { s.sourceMap with
          exprMapBack := (s.body.exprs.length, .error .mk) :: s.sourceMap.exprMapBack } }) :=
  rfl

theorem missingPat_run (s : LowerState) :
    missingPat s = .ok (s.body.pats.length,
      { s with
        body := { s.body with pats := s.body.pats ++ [.missing] }
        sourceMap := { s.sourceMap with
          patMapBack := (s.body.pats.length, .error .mk) :: s.sourceMap.patMapBack } }) :=
  rfl

theorem allocExprDesugared_run (e : Expr) (s : LowerState) :
    allocExprDesugared e s = .ok (s.body.exprs.length,
      { s with
        body := { s.body with exprs := s.body.exprs ++ [e] }
        sourceMap := { s.sourceMap with
          exprMapBack := (s.body.exprs.length, .error .mk) :: s.sourceMap.exprMapBack } }) :=
  rfl

theorem allocExpr_run (e : Expr) (ptr : Nat) (s : LowerState) :
    allocExpr e ptr s = .ok (s.body.exprs.length,
      { s with
        body := { s.body with exprs := s.body.exprs ++ [e] }
        sourceMap := { s.sourceMap with
          exprMapBack :=
            (s.body.exprs.length, .ok ⟨s.currentFileId, .exprP ptr⟩) ::
              s.sourceMap.exprMapBack
          exprMap :=
            (⟨s.currentFileId, .exprP ptr⟩, s.body.exprs.length) ::
              s.sourceMap.exprMap } }) :=
  rfl

theorem allocPat_run (p : Pat) (ptr : PatPtr) (s : LowerState) :
    allocPat p ptr s = .ok (s.body.pats.length,
      { s with
        body := { s.body with pats := s.body.pats ++ [p] }
        sourceMap := { s.sourceMap with
          patMapBack :=
            (s.body.pats.length, .ok ⟨s.currentFileId, ptr⟩) ::
              s.sourceMap.patMapBack
          patMap :=
            (⟨s.currentFileId, ptr⟩, s.body.pats.length) ::
              s.sourceMap.patMap } }) :=
  rfl

theorem pushParam_run (p : PatId) (s : LowerState) :
    pushParam p s = .ok ((),
      { s with body := { s.body with params := s.body.params ++ [p] } }) :=
  rfl

/-- The starting state satisfies the backward-map invariant. -/
theorem inv_initState (fileId : FileId) : Inv (initState fileId) := by
  constructor
  · intro i
    simp [initState, BodySourceMap.empty, countKey]
  · intro i
    simp [initState, BodySourceMap.empty, countKey]

/-- The parameter loop: it preserves the backward-map invariant and appends
one parameter id per parameter that has a pattern. -/
theorem collectParams_spec (env : Env) (ps : List AstParam) :
    ∀ s u s', collectParams env ps s = .ok (u, s') →
      (Inv s → Inv s') ∧
      s'.body.params.length =
        s.body.params.length + ps.countP (fun p => (AstParam.patOf p).isSome) ∧
      s'.body.pats.length ≥ s.body.pats.length := by
  induction ps with
  | nil =>
      intro s u s' h
      cases h
      simp [List.countP, List.countP.go]
  | cons p rest ih =>
      intro s u s' h
      cases p with
      | mk pat ty =>
          cases pat with
          | none =>
              rw [collectParams] at h
              have := ih s u s' h
              simpa [AstParam.patOf, List.countP_cons] using this
          | some astPat =>
              rw [collectParams] at h
              rw [M.bind_eq_ok] at h
              obtain ⟨pid, s1, h1, h⟩ := h
              rw [M.bind_eq_ok] at h
              obtain ⟨u2, s2, h2, h⟩ := h
              have hx := presM_collectPat env astPat _ _ _ h1
              cases h2
              have := ih _ u s' h
              obtain ⟨hi, hlen, hpats⟩ := this
              refine ⟨?_, ?_, ?_⟩
              · intro hInv
                exact hi (hx.inv hInv)
              · rw [hlen]
                simp only [List.length_append, List.length_cons, List.length_nil,
                  hx.params, AstParam.patOf, List.countP_cons]
                simp
                omega
              · obtain ⟨d, hd⟩ := hx.pats
                simp only [hd, List.length_append] at *
                omega

/-- `collect` preserves the backward-map invariant from the initial state to
the returned body and source map. -/
theorem collect_inv (env : Env) (params : Option AstParamList) (body : Option AstExpr)
    (s : LowerState) (b : Body) (sm : BodySourceMap) (s' : LowerState)
    (h : collect env params body s = .ok ((b, sm), s')) (hInv : Inv s) :
    (∀ i, countKey i sm.exprMapBack = if i < b.exprs.length then 1 else 0) ∧
    (∀ i, countKey i sm.patMapBack = if i < b.pats.length then 1 else 0) := by
  have hmain : ∀ t, Inv t → ∀ r t',
      ((collectExprOpt env body >>= fun bo =>
        setBodyExpr bo >>= fun u => getResult) : M (Body × BodySourceMap)) t =
        .ok (r, t') → (∀ i, countKey i r.2.exprMapBack =
          if i < r.1.exprs.length then 1 else 0) ∧
        (∀ i, countKey i r.2.patMapBack = if i < r.1.pats.length then 1 else 0) := by
    intro t ht r t' hr
    rw [M.bind_eq_ok] at hr
    obtain ⟨bo, t1, hb, hr⟩ := hr
    rw [M.bind_eq_ok] at hr
    obtain ⟨u2, t2, hs, hr⟩ := hr
    have hx := presM_collectExprOpt env body _ _ _ hb
    have ht1 : Inv t1 := hx.inv ht
    cases hs
    cases hr
    exact ht1
  cases params with
  | none =>
      have h' : ((collectExprOpt env body >>= fun bo =>
          setBodyExpr bo >>= fun u => getResult) : M (Body × BodySourceMap)) s =
          .ok ((b, sm), s') := h
      exact hmain s hInv (b, sm) s' h'
  | some pl =>
      cases pl with
      | mk selfParam ps =>
          cases selfParam with
          | none =>
              have h' : ((collectParams env ps >>= fun u0 =>
                  collectExprOpt env body >>= fun bo =>
                  setBodyExpr bo >>= fun u => getResult) : M (Body × BodySourceMap)) s =
                  .ok ((b, sm), s') := h
              rw [M.bind_eq_ok] at h'
              obtain ⟨u0, s1, hp, h'⟩ := h'
              have hInv1 := (collectParams_spec env ps s u0 s1 hp).1 hInv
              exact hmain s1 hInv1 (b, sm) s' h'
          | some sp =>
              have h' : ((allocPat (.bind "self" .unannotated none) (.selfP sp.ptr) >>=
                  fun paramPat => pushParam paramPat >>= fun u1 =>
                  collectParams env ps >>= fun u0 =>
                  collectExprOpt env body >>= fun bo =>
                  setBodyExpr bo >>= fun u => getResult) : M (Body × BodySourceMap)) s =
                  .ok ((b, sm), s') := h
              rw [M.bind_eq_ok] at h'
              obtain ⟨pid, s1, ha, h'⟩ := h'
              rw [M.bind_eq_ok] at h'
              obtain ⟨u1, s2, hpp, h'⟩ := h'
              rw [M.bind_eq_ok] at h'
              obtain ⟨u0, s3, hp, h'⟩ := h'
              have hInv1 : Inv s1 := (presM_allocPat _ _ _ _ _ ha).inv hInv
              cases hpp
              have hInv3 := (collectParams_spec env ps _ u0 s3 hp).1 hInv1
              exact hmain s3 hInv3 (b, sm) s' h'

/-- C7: for every `(Body, BodySourceMap)` pair produced by the lowering
entry point, the backward maps are total and exact: every expression id
allocated in the body's expression arena has exactly one entry in the
expression backward map, every pattern id has exactly one entry in the
pattern backward map (each entry a real source or the synthetic marker),
and no unallocated id is mapped. -/
theorem C7_backward_maps_total (env : Env) (fileId : FileId)
    (params : Option AstParamList) (body : Option AstExpr) (b : Body)
    (sm : BodySourceMap) (h : lower env fileId params body = .ok (b, sm)) :
    (∀ i, countKey i sm.exprMapBack = if i < b.exprs.length then 1 else 0) ∧
    (∀ i, countKey i sm.patMapBack = if i < b.pats.length then 1 else 0) := by
  unfold lower at h
  split at h
  next r s' heq =>
      cases h
      exact collect_inv env params body _ _ _ _ heq (inv_initState fileId)
  next e heq => cases h

/-- C10: in the entry point's parameter list, a parameter with no pattern
contributes no entry to the body's parameter sequence (it is skipped, not
lowered to a placeholder), so the parameter count equals the optional self
parameter plus only those parameters that have a pattern. -/
theorem C10_patless_params_skipped (env : Env) (fileId : FileId)
    (selfP : Option AstSelfParam) (ps : List AstParam) (body : Option AstExpr)
    (b : Body) (sm : BodySourceMap)
    (h : lower env fileId (some (AstParamList.mk selfP ps)) body = .ok (b, sm)) :
    b.params.length = (match selfP with | some _ => 1 | none => 0) +
      ps.countP (fun p => (AstParam.patOf p).isSome) := by
  unfold lower at h
  split at h
  next r s' heq =>
      cases h
      cases selfP with
      | none =>
          have h' : ((collectParams env ps >>= fun u0 =>
              collectExprOpt env body >>= fun bo =>
              setBodyExpr bo >>= fun u => getResult) : M (Body × BodySourceMap))
              (initState fileId) = .ok ((b, sm), s') := heq
          rw [M.bind_eq_ok] at h'
          obtain ⟨u0, s1, hp, h'⟩ := h'
          rw [M.bind_eq_ok] at h'
          obtain ⟨bo, s2, hb, h'⟩ := h'
          rw [M.bind_eq_ok] at h'
          obtain ⟨u2, s3, hs, h'⟩ := h'
          have hlen := (collectParams_spec env ps _ u0 s1 hp).2.1
          have hx := presM_collectExprOpt env body _ _ _ hb
          cases hs
          cases h'
          simp only [initState, List.length_nil, Nat.zero_add] at hlen
          simpa [hx.params] using hlen
      | some sp =>
          have h' : ((allocPat (.bind "self" .unannotated none) (.selfP sp.ptr) >>=
              fun paramPat => pushParam paramPat >>= fun u1 =>
              collectParams env ps >>= fun u0 =>
              collectExprOpt env body >>= fun bo =>
              setBodyExpr bo >>= fun u => getResult) : M (Body × BodySourceMap))
              (initState fileId) = .ok ((b, sm), s') := heq
          rw [M.bind_eq_ok] at h'
          obtain ⟨pid, s1, ha, h'⟩ := h'
          rw [M.bind_eq_ok] at h'
          obtain ⟨u1, s2, hpp, h'⟩ := h'
          rw [M.bind_eq_ok] at h'
          obtain ⟨u0, s3, hp, h'⟩ := h'
          rw [M.bind_eq_ok] at h'
          obtain ⟨bo, s4, hb, h'⟩ := h'
          rw [M.bind_eq_ok] at h'
          obtain ⟨u2, s5, hs, h'⟩ := h'
          have hx1 := presM_allocPat _ _ _ _ _ ha
          cases hpp
          have hlen := (collectParams_spec env ps _ u0 s3 hp).2.1
          have hx := presM_collectExprOpt env body _ _ _ hb
          cases hs
          cases h'
          have e4 : s4.body.params = s3.body.params := hx.params
          have e1 : s1.body.params = [] := hx1.params
          show s4.body.params.length =
            1 + List.countP (fun p => (AstParam.patOf p).isSome) ps
          rw [e4, hlen]
          simp [e1]
  next e heq => cases h

/-- C8: lowering two absent optional children in the same body allocates
two distinct fresh missing-placeholder ids — one new arena entry per absent
occurrence, never deduplicated — for expressions and for patterns alike. -/
theorem C8_missing_placeholders_fresh (env : Env) (s : LowerState) :
    ∃ id1 s1 id2 s2 pid1 t1 pid2 t2,
      collectExprOpt env none s = .ok (id1, s1) ∧
      collectExprOpt env none s1 = .ok (id2, s2) ∧
      id1 ≠ id2 ∧
      s2.body.exprs.get? id1 = some .missing ∧
      s2.body.exprs.get? id2 = some .missing ∧
      s2.body.exprs.length = s.body.exprs.length + 2 ∧
      collectPatOpt env none s = .ok (pid1, t1) ∧
      collectPatOpt env none t1 = .ok (pid2, t2) ∧
      pid1 ≠ pid2 ∧
      t2.body.pats.get? pid1 = some .missing ∧
      t2.body.pats.get? pid2 = some .missing ∧
      t2.body.pats.length = s.body.pats.length + 2 := by
  refine ⟨_, _, _, _, _, _, _, _, rfl, rfl, ?_, ?_, ?_, ?_, rfl, rfl, ?_, ?_, ?_, ?_⟩
  · simp
  · rw [List.get?_append (by simp)]
    exact List.get?_concat_length _ _
  · exact List.get?_concat_length _ _
  · simp
  · simp
  · rw [List.get?_append (by simp)]
    exact List.get?_concat_length _ _
  · exact List.get?_concat_length _ _
  · simp

/-- One step of item collection, named case: registering one recognized
item pushes its name with the fully public visibility. -/
theorem blockItemEntryNamed (env : Env) (d : ModuleDefId) (n : Name)
    (rest : List AstItem)
    (ih : ∀ s u s', collectBlockItemsM env rest s = .ok (u, s') →
      ∃ newE, s'.body.itemScope.entries = newE ++ s.body.itemScope.entries ∧
        ∀ e ∈ newE, e.2.vis = Visibility.public)
    (s : LowerState) (u : Unit) (s' : LowerState)
    (h : ((defineDefM d) >>= fun u1 =>
      pushResM n (PerNs.fromDef d .public) >>= fun u2 =>
      collectBlockItemsM env rest) s = .ok (u, s')) :
    ∃ newE, s'.body.itemScope.entries = newE ++ s.body.itemScope.entries ∧
      ∀ e ∈ newE, e.2.vis = Visibility.public := by
  rw [M.bind_eq_ok] at h
  obtain ⟨u1, s1, h1, h⟩ := h
  rw [M.bind_eq_ok] at h
  obtain ⟨u2, s2, h2, h⟩ := h
  cases h1
  cases h2
  obtain ⟨newE, hE, hV⟩ := ih _ u s' h
  refine ⟨newE ++ [(n, PerNs.fromDef d .public)], ?_, ?_⟩
  · rw [hE]
    simp [ItemScope.pushRes, ItemScope.defineDef]
  · intro e he
    rcases List.mem_append.mp he with hin | hin
    · exact hV e hin
    · rw [List.mem_singleton.mp hin]
      rfl

/-- One step of item collection, unnamed case: only the anonymous
definition table changes; no entry is added. -/
theorem blockItemEntryAnon (env : Env) (d : ModuleDefId) (rest : List AstItem)
    (ih : ∀ s u s', collectBlockItemsM env rest s = .ok (u, s') →
      ∃ newE, s'.body.itemScope.entries = newE ++ s.body.itemScope.entries ∧
        ∀ e ∈ newE, e.2.vis = Visibility.public)
    (s : LowerState) (u : Unit) (s' : LowerState)
    (h : ((defineDefM d) >>= fun u1 =>
      collectBlockItemsM env rest) s = .ok (u, s')) :
    ∃ newE, s'.body.itemScope.entries = newE ++ s.body.itemScope.entries ∧
      ∀ e ∈ newE, e.2.vis = Visibility.public := by
  rw [M.bind_eq_ok] at h
  obtain ⟨u1, s1, h1, h⟩ := h
  cases h1
  obtain ⟨newE, hE, hV⟩ := ih _ u s' h
  refine ⟨newE, ?_, hV⟩
  rw [hE]
  simp [ItemScope.defineDef]

/-- C9: every named item registered into a block's item scope is recorded
with the fully public visibility, regardless of the visibility declared on
the item in source. -/
theorem C9_block_items_public_visibility (env : Env) (items : List AstItem) :
    ∀ s u s', collectBlockItemsM env items s = .ok (u, s') →
      ∃ newE, s'.body.itemScope.entries = newE ++ s.body.itemScope.entries ∧
        ∀ e ∈ newE, e.2.vis = Visibility.public := by
  induction items with
  | nil =>
      intro s u s' h
      cases h
      exact ⟨[], rfl, by simp⟩
  | cons item rest ih =>
      intro s u s' h
      cases item with
      | fnDef astId name vis =>
          cases name with
          | some n => exact blockItemEntryNamed env (.functionId (env.internFn astId)) n rest ih s u s' h
          | none => exact blockItemEntryAnon env (.functionId (env.internFn astId)) rest ih s u s' h
      | typeAliasDef astId name vis =>
          cases name with
          | some n => exact blockItemEntryNamed env (.typeAliasId (env.internTypeAlias astId)) n rest ih s u s' h
          | none => exact blockItemEntryAnon env (.typeAliasId (env.internTypeAlias astId)) rest ih s u s' h
      | constDef astId name vis =>
          cases name with
          | some n => exact blockItemEntryNamed env (.constId (env.internConst astId)) n rest ih s u s' h
          | none => exact blockItemEntryAnon env (.constId (env.internConst astId)) rest ih s u s' h
      | staticDef astId name vis =>
          cases name with
          | some n => exact blockItemEntryNamed env (.staticId (env.internStatic astId)) n rest ih s u s' h
          | none => exact blockItemEntryAnon env (.staticId (env.internStatic astId)) rest ih s u s' h
      | structDef astId name vis =>
          cases name with
          | some n => exact blockItemEntryNamed env (.adtId (.structId (env.internStruct astId))) n rest ih s u s' h
          | none => exact blockItemEntryAnon env (.adtId (.structId (env.internStruct astId))) rest ih s u s' h
      | enumDef astId name vis =>
          cases name with
          | some n => exact blockItemEntryNamed env (.adtId (.enumId (env.internEnum astId))) n rest ih s u s' h
          | none => exact blockItemEntryAnon env (.adtId (.enumId (env.internEnum astId))) rest ih s u s' h
      | unionDef astId name vis =>
          cases name with
          | some n => exact blockItemEntryNamed env (.adtId (.unionId (env.internUnion astId))) n rest ih s u s' h
          | none => exact blockItemEntryAnon env (.adtId (.unionId (env.internUnion astId))) rest ih s u s' h
      | traitDef astId name vis =>
          cases name with
          | some n => exact blockItemEntryNamed env (.traitId (env.internTrait astId)) n rest ih s u s' h
          | none => exact blockItemEntryAnon env (.traitId (env.internTrait astId)) rest ih s u s' h
      | externBlock => exact ih s u s' h
      | implDef => exact ih s u s' h
      | useItem => exact ih s u s' h
      | externCrateItem => exact ih s u s' h
      | moduleItem => exact ih s u s' h
      | macroCallItem => exact ih s u s' h

/-- C5: lowering a parenthesized expression around a path expression
allocates no node of its own — it returns the inner expression's id — and
additionally records a forward source-map entry for the parenthesized span,
so that both the outer span and the inner span resolve to the identical
expression id. -/
theorem C5_paren_aliasing (env : Env) (s : LowerState) (ptr iptr : Nat)
    (ipath : Option AstPath) :
    ∃ id s1 s',
      collectExpr env (.pathExpr iptr ipath) s = .ok (id, s1) ∧
      collectExpr env (.parenExpr ptr (some (.pathExpr iptr ipath))) s = .ok (id, s') ∧
      s'.body.exprs = s1.body.exprs ∧
      s'.body.exprs.length = s.body.exprs.length + 1 ∧
      lookupA (⟨s.currentFileId, .exprP ptr⟩ : ExprSource) s'.sourceMap.exprMap =
        some id ∧
      lookupA (⟨s.currentFileId, .exprP iptr⟩ : ExprSource) s'.sourceMap.exprMap =
        some id := by
  refine ⟨_, _, _, rfl, rfl, rfl, by simp, ?_, ?_⟩
  · show lookupA _ ((_, s.body.exprs.length) :: (_, s.body.exprs.length) :: _) = _
    rw [lookupA_cons, if_pos rfl]
  · show lookupA (⟨s.currentFileId, .exprP iptr⟩ : ExprSource)
      ((⟨s.currentFileId, .exprP ptr⟩, s.body.exprs.length) ::
        (⟨s.currentFileId, .exprP iptr⟩, s.body.exprs.length) :: _) = _
    by_cases hpi : ptr = iptr
    · subst hpi
      rw [lookupA_cons, if_pos rfl]
    · rw [lookupA_cons, if_neg (by simp [hpi]), lookupA_cons, if_pos rfl]

/-- Running a bind whose first stage's outcome is known. -/
theorem M.bind_ok_left {α β : Type} {m : M α} {k : α → M β} {s t : LowerState}
    {a : α} (h : m s = .ok (a, t)) : (m >>= k) s = k a t := by
  simp only [Bind.bind, M.bind, h]

/-- The run of a bare single-identifier pattern with no annotations and no
sub-pattern: the resolution query decides between a path pattern and a
fresh binding. -/
theorem bindPatNoSub_run (env : Env) (ptr : Nat) (n : Name) (s : LowerState) :
    collectPat env (.bindPat ptr (some n) false false none) s =
      allocPat (match env.resolveTakeValues (Path.fromName n) .other with
        | some (.constId _) => Pat.path (Path.fromName n)
        | some (.enumVariantId _) => Pat.path (Path.fromName n)
        | some (.adtId (.structId st)) =>
          if env.structKind st ≠ StructKind.record then Pat.path (Path.fromName n)
          else Pat.bind n .unannotated none
        | _ => Pat.bind n .unannotated none) (.patP ptr) s := rfl

/-- C6: disambiguation of single-identifier patterns.  With no annotation
and no sub-pattern, the module's value namespace decides: a constant, an
enum variant, or a non-record structure yields a path pattern; a
record-shaped structure, anything else, or no resolution yields a fresh
binding.  Any annotation or sub-pattern always yields a binding, whatever
the resolution would say. -/
theorem C6_bindpat_disambiguation (env : Env) (s : LowerState) (ptr : Nat) (n : Name) :
    (∀ c, env.resolveTakeValues (Path.fromName n) .other = some (.constId c) →
      ∃ id s', collectPat env (.bindPat ptr (some n) false false none) s = .ok (id, s') ∧
        s'.body.pats.get? id = some (.path (Path.fromName n))) ∧
    (∀ v, env.resolveTakeValues (Path.fromName n) .other = some (.enumVariantId v) →
      ∃ id s', collectPat env (.bindPat ptr (some n) false false none) s = .ok (id, s') ∧
        s'.body.pats.get? id = some (.path (Path.fromName n))) ∧
    (∀ st, env.resolveTakeValues (Path.fromName n) .other = some (.adtId (.structId st)) →
      env.structKind st ≠ StructKind.record →
      ∃ id s', collectPat env (.bindPat ptr (some n) false false none) s = .ok (id, s') ∧
        s'.body.pats.get? id = some (.path (Path.fromName n))) ∧
    (∀ st, env.resolveTakeValues (Path.fromName n) .other = some (.adtId (.structId st)) →
      env.structKind st = StructKind.record →
      ∃ id s', collectPat env (.bindPat ptr (some n) false false none) s = .ok (id, s') ∧
        s'.body.pats.get? id = some (.bind n .unannotated none)) ∧
    (∀ d, env.resolveTakeValues (Path.fromName n) .other = some d →
      (∀ c, d ≠ .constId c) → (∀ v, d ≠ .enumVariantId v) →
      (∀ st, d ≠ .adtId (.structId st)) →
      ∃ id s', collectPat env (.bindPat ptr (some n) false false none) s = .ok (id, s') ∧
        s'.body.pats.get? id = some (.bind n .unannotated none)) ∧
    (env.resolveTakeValues (Path.fromName n) .other = none →
      ∃ id s', collectPat env (.bindPat ptr (some n) false false none) s = .ok (id, s') ∧
        s'.body.pats.get? id = some (.bind n .unannotated none)) ∧
    (∀ isMut isRef, (isMut || isRef) = true →
      ∃ id s', collectPat env (.bindPat ptr (some n) isMut isRef none) s = .ok (id, s') ∧
        s'.body.pats.get? id = some (.bind n ( BindingAnnotation.new isMut isRef) none)) ∧
    (∀ isMut isRef sp spid s1, collectPat env sp s = .ok (spid, s1) →
      ∃ id s', collectPat env (.bindPat ptr (some n) isMut isRef (some sp)) s = .ok (id, s') ∧
        s'.body.pats.get? id =
          some (.bind n ( BindingAnnotation.new isMut isRef) (some spid))) := by
  refine ⟨?_, ?_, ?_, ?_, ?_, ?_, ?_, ?_⟩
  · intro c hres
    rw [bindPatNoSub_run, hres]
    exact ⟨_, _, allocPat_run _ _ _, List.get?_concat_length _ _⟩
  · intro v hres
    rw [bindPatNoSub_run, hres]
    exact ⟨_, _, allocPat_run _ _ _, List.get?_concat_length _ _⟩
  · intro st hres hk
    rw [bindPatNoSub_run, hres]
    refine ⟨_, _, allocPat_run _ _ _, ?_⟩
    rw [show (match some (ModuleDefId.adtId (.structId st)) with
        | some (.constId _) => Pat.path (Path.fromName n)
        | some (.enumVariantId _) => Pat.path (Path.fromName n)
        | some (.adtId (.structId st)) =>
          if env.structKind st ≠ StructKind.record then Pat.path (Path.fromName n)
          else Pat.bind n .unannotated none
        | _ => Pat.bind n .unannotated none) =
      (if env.structKind st ≠ StructKind.record then Pat.path (Path.fromName n)
        else Pat.bind n .unannotated none) from rfl, if_pos hk]
    exact List.get?_concat_length _ _
  · intro st hres hk
    rw [bindPatNoSub_run, hres]
    refine ⟨_, _, allocPat_run _ _ _, ?_⟩
    rw [show (match some (ModuleDefId.adtId (.structId st)) with
        | some (.constId _) => Pat.path (Path.fromName n)
        | some (.enumVariantId _) => Pat.path (Path.fromName n)
        | some (.adtId (.structId st)) =>
          if env.structKind st ≠ StructKind.record then Pat.path (Path.fromName n)
          else Pat.bind n .unannotated none
        | _ => Pat.bind n .unannotated none) =
      (if env.structKind st ≠ StructKind.record then Pat.path (Path.fromName n)
        else Pat.bind n .unannotated none) from rfl,
      if_neg (by simp [hk])]
    exact List.get?_concat_length _ _
  · intro d hres hc hv hst
    rw [bindPatNoSub_run, hres]
    cases d with
    | moduleId m => exact ⟨_, _, allocPat_run _ _ _, List.get?_concat_length _ _⟩
    | functionId f => exact ⟨_, _, allocPat_run _ _ _, List.get?_concat_length _ _⟩
    | adtId a =>
        cases a with
        | structId st => exact absurd rfl (hst st)
        | enumId e => exact ⟨_, _, allocPat_run _ _ _, List.get?_concat_length _ _⟩
        | unionId u => exact ⟨_, _, allocPat_run _ _ _, List.get?_concat_length _ _⟩
    | enumVariantId v => exact absurd rfl (hv v)
    | constId c => exact absurd rfl (hc c)
    | staticId st => exact ⟨_, _, allocPat_run _ _ _, List.get?_concat_length _ _⟩
    | traitId t => exact ⟨_, _, allocPat_run _ _ _, List.get?_concat_length _ _⟩
    | typeAliasId t => exact ⟨_, _, allocPat_run _ _ _, List.get?_concat_length _ _⟩
    | builtinType b => exact ⟨_, _, allocPat_run _ _ _, List.get?_concat_length _ _⟩
  · intro hres
    rw [bindPatNoSub_run, hres]
    exact ⟨_, _, allocPat_run _ _ _, List.get?_concat_length _ _⟩
  · intro isMut isRef hmr
    cases isMut with
    | true =>
        cases isRef with
        | true =>
            rw [show collectPat env (.bindPat ptr (some n) true true none) s =
              allocPat (Pat.bind n ( BindingAnnotation.new true true) none)
                (.patP ptr) s from rfl]
            exact ⟨_, _, allocPat_run _ _ _, List.get?_concat_length _ _⟩
        | false =>
            rw [show collectPat env (.bindPat ptr (some n) true false none) s =
              allocPat (Pat.bind n ( BindingAnnotation.new true false) none)
                (.patP ptr) s from rfl]
            exact ⟨_, _, allocPat_run _ _ _, List.get?_concat_length _ _⟩
    | false =>
        cases isRef with
        | true =>
            rw [show collectPat env (.bindPat ptr (some n) false true none) s =
              allocPat (Pat.bind n ( BindingAnnotation.new false true) none)
                (.patP ptr) s from rfl]
            exact ⟨_, _, allocPat_run _ _ _, List.get?_concat_length _ _⟩
        | false => cases hmr
  · intro isMut isRef sp spid s1 hsub
    have key : collectPat env (.bindPat ptr (some n) isMut isRef (some sp)) s =
        ((collectPat env sp) >>= fun x =>
          allocPat
            (if BindingAnnotation.new isMut isRef = BindingAnnotation.unannotated ∧
                (some x : Option PatId) = none then
              match env.resolveTakeValues (Path.fromName n) .other with
              | some (.constId _) => Pat.path (Path.fromName n)
              | some (.enumVariantId _) => Pat.path (Path.fromName n)
              | some (.adtId (.structId st)) =>
                if env.structKind st ≠ StructKind.record then Pat.path (Path.fromName n)
                else Pat.bind n ( BindingAnnotation.new isMut isRef) (some x)
              | _ => Pat.bind n ( BindingAnnotation.new isMut isRef) (some x)
            else Pat.bind n ( BindingAnnotation.new isMut isRef) (some x))
            (.patP ptr)) s := rfl
    rw [key, M.bind_ok_left hsub]
    rw [if_neg (fun hc => Option.noConfusion hc.2)]
    exact ⟨_, _, allocPat_run _ _ _, List.get?_concat_length _ _⟩

/-- The record-literal field loop, characterized: the pointer list records
every syntactic field in order, while the lowered field list keeps exactly
the fields whose configuration check passes. -/
theorem collectRecordFields_spec (env : Env) (fields : List AstRecordField) :
    ∀ s fp s', collectRecordFields env fields s = .ok (fp, s') →
      fp.2 = fields.map AstRecordField.ptrOf ∧
      fp.1.map RecordLitField.name =
        (fields.filter (fun f => env.isCfgEnabled f.attrsOf env.cfgOptions)).map
          (fun f => f.nameRefOf.getD Name.missing) := by
  induction fields with
  | nil =>
      intro s fp s' h
      cases h
      simp
  | cons fld rest ih =>
      intro s fp s' h
      cases fld with
      | mk fptr attrs nameRef fexpr =>
          by_cases hcfg : env.isCfgEnabled attrs env.cfgOptions
          · cases fexpr with
            | some e =>
                have h' : ((if env.isCfgEnabled attrs env.cfgOptions then
                    (collectExpr env e) >>= fun x =>
                      (collectRecordFields env rest) >>= fun fp =>
                        M.pure (⟨nameRef.getD Name.missing, x⟩ :: fp.1, fptr :: fp.2)
                  else
                    (collectRecordFields env rest) >>= fun fp =>
                      M.pure (fp.1, fptr :: fp.2)) : M (List RecordLitField × List Nat))
                    s = .ok (fp, s') := h
                rw [if_pos hcfg] at h'
                rw [M.bind_eq_ok] at h'
                obtain ⟨x, s1, hx, h'⟩ := h'
                rw [M.bind_eq_ok] at h'
                obtain ⟨fp1, s2, hf, h'⟩ := h'
                cases h'
                obtain ⟨hp, hn⟩ := ih _ fp1 _ hf
                constructor
                · simp [AstRecordField.ptrOf, hp]
                · simp [List.filter_cons, hcfg, AstRecordField.attrsOf,
                    AstRecordField.nameRefOf, hn]
            | none =>
                cases nameRef with
                | some nr =>
                    have h' : ((if env.isCfgEnabled attrs env.cfgOptions then
                        (allocExprFieldShorthand (.path (Path.fromNameRef nr)) fptr) >>=
                          fun x => (collectRecordFields env rest) >>= fun fp =>
                            M.pure (⟨(some nr).getD Name.missing, x⟩ :: fp.1, fptr :: fp.2)
                      else
                        (collectRecordFields env rest) >>= fun fp =>
                          M.pure (fp.1, fptr :: fp.2)) : M (List RecordLitField × List Nat))
                        s = .ok (fp, s') := h
                    rw [if_pos hcfg] at h'
                    rw [M.bind_eq_ok] at h'
                    obtain ⟨x, s1, hx, h'⟩ := h'
                    rw [M.bind_eq_ok] at h'
                    obtain ⟨fp1, s2, hf, h'⟩ := h'
                    cases h'
                    obtain ⟨hp, hn⟩ := ih _ fp1 _ hf
                    constructor
                    · simp [AstRecordField.ptrOf, hp]
                    · simp [List.filter_cons, hcfg, AstRecordField.attrsOf,
                        AstRecordField.nameRefOf, hn]
                | none =>
                    have h' : ((if env.isCfgEnabled attrs env.cfgOptions then
                        missingExpr >>= fun x =>
                          (collectRecordFields env rest) >>= fun fp =>
                            M.pure (⟨(none : Option Name).getD Name.missing, x⟩ :: fp.1,
                              fptr :: fp.2)
                      else
                        (collectRecordFields env rest) >>= fun fp =>
                          M.pure (fp.1, fptr :: fp.2)) : M (List RecordLitField × List Nat))
                        s = .ok (fp, s') := h
                    rw [if_pos hcfg] at h'
                    rw [M.bind_eq_ok] at h'
                    obtain ⟨x, s1, hx, h'⟩ := h'
                    rw [M.bind_eq_ok] at h'
                    obtain ⟨fp1, s2, hf, h'⟩ := h'
                    cases h'
                    obtain ⟨hp, hn⟩ := ih _ fp1 _ hf
                    constructor
                    · simp [AstRecordField.ptrOf, hp]
                    · simp [List.filter_cons, hcfg, AstRecordField.attrsOf,
                        AstRecordField.nameRefOf, hn]
          · cases fexpr with
            | some e =>
                have h' : ((if env.isCfgEnabled attrs env.cfgOptions then
                    (collectExpr env e) >>= fun x =>
                      (collectRecordFields env rest) >>= fun fp =>
                        M.pure (⟨nameRef.getD Name.missing, x⟩ :: fp.1, fptr :: fp.2)
                  else
                    (collectRecordFields env rest) >>= fun fp =>
                      M.pure (fp.1, fptr :: fp.2)) : M (List RecordLitField × List Nat))
                    s = .ok (fp, s') := h
                rw [if_neg hcfg] at h'
                rw [M.bind_eq_ok] at h'
                obtain ⟨fp1, s2, hf, h'⟩ := h'
                cases h'
                obtain ⟨hp, hn⟩ := ih _ fp1 _ hf
                constructor
                · simp [AstRecordField.ptrOf, hp]
                · simp [List.filter_cons, hcfg, AstRecordField.attrsOf,
                    AstRecordField.nameRefOf, hn]
            | none =>
                cases nameRef with
                | some nr =>
                    have h' : ((if env.isCfgEnabled attrs env.cfgOptions then
                        (allocExprFieldShorthand (.path (Path.fromNameRef nr)) fptr) >>=
                          fun x => (collectRecordFields env rest) >>= fun fp =>
                            M.pure (⟨(some nr).getD Name.missing, x⟩ :: fp.1, fptr :: fp.2)
                      else
                        (collectRecordFields env rest) >>= fun fp =>
                          M.pure (fp.1, fptr :: fp.2)) : M (List RecordLitField × List Nat))
                        s = .ok (fp, s') := h
                    rw [if_neg hcfg] at h'
                    rw [M.bind_eq_ok] at h'
                    obtain ⟨fp1, s2, hf, h'⟩ := h'
                    cases h'
                    obtain ⟨hp, hn⟩ := ih _ fp1 _ hf
                    constructor
                    · simp [AstRecordField.ptrOf, hp]
                    · simp [List.filter_cons, hcfg, AstRecordField.attrsOf,
                        AstRecordField.nameRefOf, hn]
                | none =>
                    have h' : ((if env.isCfgEnabled attrs env.cfgOptions then
                        missingExpr >>= fun x =>
                          (collectRecordFields env rest) >>= fun fp =>
                            M.pure (⟨(none : Option Name).getD Name.missing, x⟩ :: fp.1,
                              fptr :: fp.2)
                      else
                        (collectRecordFields env rest) >>= fun fp =>
                          M.pure (fp.1, fptr :: fp.2)) : M (List RecordLitField × List Nat))
                        s = .ok (fp, s') := h
                    rw [if_neg hcfg] at h'
                    rw [M.bind_eq_ok] at h'
                    obtain ⟨fp1, s2, hf, h'⟩ := h'
                    cases h'
                    obtain ⟨hp, hn⟩ := ih _ fp1 _ hf
                    constructor
                    · simp [AstRecordField.ptrOf, hp]
                    · simp [List.filter_cons, hcfg, AstRecordField.attrsOf,
                        AstRecordField.nameRefOf, hn]

/-- The field-position insertion loop, characterized: it only touches the
field-position map, its new entries are keyed `(id, i + j)` for the `j`-th
pointer, and every other key reads as before. -/
theorem insertFieldPtrs_spec (id : ExprId) (ptrs : List Nat) :
    ∀ i s u s', insertFieldPtrs id i ptrs s = .ok (u, s') →
      s'.body = s.body ∧
      s'.sourceMap.exprMap = s.sourceMap.exprMap ∧
      s'.sourceMap.exprMapBack = s.sourceMap.exprMapBack ∧
      (∀ j, j < ptrs.length →
        lookupA ((id, i + j)) s'.sourceMap.fieldMap = ptrs.get? j) ∧
      (∀ k : ExprId × Nat, (∀ j, j < ptrs.length → k ≠ (id, i + j)) →
        lookupA k s'.sourceMap.fieldMap = lookupA k s.sourceMap.fieldMap) := by
  induction ptrs with
  | nil =>
      intro i s u s' h
      cases h
      refine ⟨rfl, rfl, rfl, ?_, ?_⟩
      · intro j hj
        simp at hj
      · intro k hk
        rfl
  | cons p rest ih =>
      intro i s u s' h
      rw [insertFieldPtrs] at h
      rw [M.bind_eq_ok] at h
      obtain ⟨u1, s1, h1, h⟩ := h
      cases h1
      obtain ⟨hb, hm, hmb, hlook, hframe⟩ := ih (i + 1) _ u s' h
      refine ⟨hb, hm, hmb, ?_, ?_⟩
      · intro j hj
        cases j with
        | zero =>
            rw [hframe (id, i + 0) (by
              intro j hj2 hk
              have := congrArg Prod.snd hk
              simp at this
              omega)]
            rw [lookupA_cons, if_pos (by simp)]
            rfl
        | succ j' =>
            have hj' : j' < rest.length := by
              simpa using hj
            have := hlook j' hj'
            rw [show i + (j' + 1) = (i + 1) + j' from by omega]
            simpa using this
      · intro k hk
        rw [hframe k (by
          intro j hj2 hkk
          exact hk (j + 1) (by simpa using Nat.succ_lt_succ hj2) (by
            rw [hkk]
            simp
            omega))]
        rw [lookupA_cons, if_neg (by
          intro hkk
          exact hk 0 (by simp) (by rw [← hkk]; simp))]

/-- C1 (amended): lowering a record literal drops a configuration-disabled
field from the fields list of the resulting node, but the source map's
field-position entries are recorded for every syntactic field — disabled
ones included — keyed by the field's ordinal in the unfiltered syntactic
list. -/
theorem C1_record_field_filtering (env : Env) (ptr : Nat) (path : Option AstPath)
    (fields : List AstRecordField) (spreadE : Option AstExpr) (s : LowerState)
    (res : ExprId) (s' : LowerState)
    (h : collectExpr env (.recordLitE ptr path (some (.mk fields spreadE))) s =
      .ok (res, s')) :
    ∃ fp s1,
      collectRecordFields env fields s = .ok (fp, s1) ∧
      fp.2 = fields.map AstRecordField.ptrOf ∧
      fp.1.map RecordLitField.name =
        (fields.filter (fun f => env.isCfgEnabled f.attrsOf env.cfgOptions)).map
          (fun f => f.nameRefOf.getD Name.missing) ∧
      (∃ spread, s'.body.exprs.get? res =
        some (.recordLit (path.bind env.parsePath) fp.1 spread)) ∧
      (∀ j, j < fields.length →
        lookupA ((res, j)) s'.sourceMap.fieldMap =
          (fields.map AstRecordField.ptrOf).get? j) := by
  cases spreadE with
  | some sp =>
      rw [show collectExpr env (.recordLitE ptr path (some (.mk fields (some sp)))) =
        ((collectRecordFields env fields) >>= fun fp =>
          (collectExpr env sp) >>= fun x =>
          (allocExpr (.recordLit (path.bind env.parsePath) fp.1 (some x)) ptr) >>= fun r =>
          (insertFieldPtrs r 0 fp.2) >>= fun u => M.pure r) from rfl] at h
      rw [M.bind_eq_ok] at h
      obtain ⟨fp, s1, hf, h⟩ := h
      rw [M.bind_eq_ok] at h
      obtain ⟨x, s2, hsp, h⟩ := h
      rw [M.bind_eq_ok] at h
      obtain ⟨r, s3, ha, h⟩ := h
      rw [M.bind_eq_ok] at h
      obtain ⟨u, s4, hins, h⟩ := h
      obtain ⟨hptrs, hnames⟩ := collectRecordFields_spec env fields s fp s1 hf
      obtain ⟨hbody, hm1, hm2, hlook, hframe⟩ :=
        insertFieldPtrs_spec r fp.2 0 s3 u s4 hins
      rw [allocExpr_run] at ha
      cases ha
      cases h
      refine ⟨fp, s1, hf, hptrs, hnames, ⟨some x, ?_⟩, ?_⟩
      · rw [hbody]
        show (s2.body.exprs ++
          [Expr.recordLit (path.bind env.parsePath) fp.1 (some x)]).get?
            s2.body.exprs.length = _
        exact List.get?_concat_length _ _
      · intro j hj
        have hj2 : j < fp.2.length := by
          rw [hptrs]
          simpa using hj
        have := hlook j hj2
        rw [← hptrs]
        simpa using this
  | none =>
      rw [show collectExpr env (.recordLitE ptr path (some (.mk fields none))) =
        ((collectRecordFields env fields) >>= fun fp =>
          (allocExpr (.recordLit (path.bind env.parsePath) fp.1 none) ptr) >>= fun r =>
          (insertFieldPtrs r 0 fp.2) >>= fun u => M.pure r) from rfl] at h
      rw [M.bind_eq_ok] at h
      obtain ⟨fp, s1, hf, h⟩ := h
      rw [M.bind_eq_ok] at h
      obtain ⟨r, s3, ha, h⟩ := h
      rw [M.bind_eq_ok] at h
      obtain ⟨u, s4, hins, h⟩ := h
      obtain ⟨hptrs, hnames⟩ := collectRecordFields_spec env fields s fp s1 hf
      obtain ⟨hbody, hm1, hm2, hlook, hframe⟩ :=
        insertFieldPtrs_spec r fp.2 0 s3 u s4 hins
      rw [allocExpr_run] at ha
      cases ha
      cases h
      refine ⟨fp, s1, hf, hptrs, hnames, ⟨none, ?_⟩, ?_⟩
      · rw [hbody]
        show (s1.body.exprs ++
          [Expr.recordLit (path.bind env.parsePath) fp.1 none]).get?
            s1.body.exprs.length = _
        exact List.get?_concat_length _ _
      · intro j hj
        have hj2 : j < fp.2.length := by
          rw [hptrs]
          simpa using hj
        have := hlook j hj2
        rw [← hptrs]
        simpa using this

/-- The environment used by the concrete record-literal runs: attribute set
`1` is the only enabled one. -/
def envC : Env :=
  { parsePath := fun _ => none
    resolveTakeValues := fun _ _ => none
    structKind := fun _ => StructKind.record
    isCfgEnabled := fun a _ => a == 1
    cfgOptions := 0
    krate := 0
    genericArgsFromAst := fun _ => none
    internFn := id
    internTypeAlias := id
    internConst := id
    internStatic := id
    internStruct := id
    internEnum := id
    internUnion := id
    internTrait := id }

/-- C1 counterexample: a record literal with a single configuration-disabled
field.  The field is absent from the node's fields list, yet the source
map's field-position table does hold an entry for it — contradicting the
claim that disabled fields are absent from the field-position entries. -/
theorem C1_counterexample :
    ∃ s', collectExpr envC
        (.recordLitE 60 none (some (.mk [.mk 61 0 (some "x") none] none)))
        (initState 0) = .ok (0, s') ∧
      s'.body.exprs.get? 0 = some (.recordLit none [] none) ∧
      lookupA ((0 : ExprId), (0 : Nat)) s'.sourceMap.fieldMap = some 61 :=
  ⟨_, rfl, rfl, rfl⟩

/-- The state produced by lowering the one-field record literal of the
concrete C1 run, written out explicitly. -/
def c1State : LowerState :=
  { body := { exprs := [Expr.recordLit none [] none], pats := [], params := [],
              bodyExpr := 4294967295,
              itemScope := { entries := [], defs := [], legacyMacros := [] } },
    sourceMap := { exprMap := [(⟨0, ExprPtr.exprP 60⟩, 0)],
                   exprMapBack := [(0, Except.ok ⟨0, ExprPtr.exprP 60⟩)],
                   patMap := [], patMapBack := [],
                   fieldMap := [((0, 0), 61)], expansions := [] },
    currentFileId := 0 }

/-- C1 witness: the amended record-literal theorem instantiated at a
concrete one-field literal whose only field is configuration-disabled. -/
theorem C1_record_field_filtering_witness :
    ∃ fp s1,
      collectRecordFields envC [AstRecordField.mk 61 0 (some "x") none]
        (initState 0) = .ok (fp, s1) ∧
      fp.2 = [AstRecordField.mk 61 0 (some "x") none].map AstRecordField.ptrOf ∧
      fp.1.map RecordLitField.name =
        ([AstRecordField.mk 61 0 (some "x") none].filter
          (fun f => envC.isCfgEnabled f.attrsOf envC.cfgOptions)).map
            (fun f => f.nameRefOf.getD Name.missing) ∧
      (∃ spread, c1State.body.exprs.get? 0 =
        some (.recordLit (Option.bind none envC.parsePath) fp.1 spread)) ∧
      (∀ j, j < [AstRecordField.mk 61 0 (some "x") none].length →
        lookupA ((0, j)) c1State.sourceMap.fieldMap =
          ([AstRecordField.mk 61 0 (some "x") none].map AstRecordField.ptrOf).get? j) :=
  C1_record_field_filtering envC 60 none [AstRecordField.mk 61 0 (some "x") none]
    none (initState 0) 0 c1State rfl

/-- The else-branch stage of the if-expression arm (the `match else_branch`
block of the source), factored out so the desugaring theorem can name it. -/
def collectElseBranch (env : Env) : Option AstElseBranch → M (Option ExprId)
  | none => M.pure none
  | some (.blockBranch it) => do
      let b ← collectBlock env it
      M.pure (some b)
  | some (.ifBranch elif) => do
      let b ← collectExpr env elif
      M.pure (some b)

/-- C3 (amended): lowering `if let P = E { A } else { B }` produces a match
node over the lowered scrutinee with exactly two arms; the first arm's
pattern is the lowered `P` and its result the lowered then-branch, while
the second arm's pattern is a fresh `Pat.missing` placeholder (not a
wildcard) with a synthetic backward entry, its result being the lowered
else-branch (or a fresh empty block when no else-branch exists), and the
match node carries the if-expression's real source pointer. -/
theorem C3_if_let_desugaring (env : Env) (ptr : Nat) (pat : AstPat)
    (condExpr : Option AstExpr) (thenB : Option AstBlockExpr)
    (elseB : Option AstElseBranch) (s : LowerState) (res : ExprId) (s' : LowerState)
    (h : collectExpr env (.ifExpr ptr (some (.mk (some pat) condExpr)) thenB elseB) s =
      .ok (res, s')) :
    ∃ t s1 eb s2 p s3 m s4 w s5 arm2 s6,
      collectBlockOpt env thenB s = .ok (t, s1) ∧
      collectElseBranch env elseB s1 = .ok (eb, s2) ∧
      collectPat env pat s2 = .ok (p, s3) ∧
      collectExprOpt env condExpr s3 = .ok (m, s4) ∧
      missingPat s4 = .ok (w, s5) ∧
      (match eb with
        | some b => arm2 = b ∧ s6 = s5
        | none => emptyBlock s5 = .ok (arm2, s6)) ∧
      allocExpr (.matchE m [⟨p, t, none⟩, ⟨w, arm2, none⟩]) ptr s6 = .ok (res, s') ∧
      s'.body.exprs.get? res =
        some (.matchE m [⟨p, t, none⟩, ⟨w, arm2, none⟩]) ∧
      s'.body.pats.get? w = some Pat.missing ∧
      lookupA w s5.sourceMap.patMapBack = some (.error .mk) ∧
      lookupA res s'.sourceMap.exprMapBack = some (.ok ⟨s.currentFileId, .exprP ptr⟩) := by
  cases elseB with
  | none =>
      rw [show collectExpr env (.ifExpr ptr (some (.mk (some pat) condExpr)) thenB none) =
        ((collectBlockOpt env thenB) >>= fun t =>
          (collectPat env pat) >>= fun p =>
          (collectExprOpt env condExpr) >>= fun m =>
          missingPat >>= fun w =>
          emptyBlock >>= fun arm2 =>
          allocExpr (.matchE m [⟨p, t, none⟩, ⟨w, arm2, none⟩]) ptr) from rfl] at h
      rw [M.bind_eq_ok] at h
      obtain ⟨t, s1, h1, h⟩ := h
      rw [M.bind_eq_ok] at h
      obtain ⟨p, s3, h2, h⟩ := h
      rw [M.bind_eq_ok] at h
      obtain ⟨m, s4, h3, h⟩ := h
      rw [M.bind_eq_ok] at h
      obtain ⟨w, s5, h4, h⟩ := h
      rw [M.bind_eq_ok] at h
      obtain ⟨arm2, s6, h5, h⟩ := h
      have e1 := presM_collectBlockOpt env thenB s t s1 h1
      have e2 := presM_collectPat env pat s1 p s3 h2
      have e3 := presM_collectExprOpt env condExpr s3 m s4 h3
      have hfid : s4.currentFileId = s.currentFileId := by
        rw [e3.fileId, e2.fileId, e1.fileId]
      rw [missingPat_run] at h4
      cases h4
      rw [show emptyBlock = allocExprDesugared (.block [] none) from rfl,
        allocExprDesugared_run] at h5
      cases h5
      rw [allocExpr_run] at h
      cases h
      rw [← hfid]
      refine ⟨t, s1, none, s1, p, s3, m, s4, _, _, _, _, h1, rfl, h2, h3,
        missingPat_run s4, allocExprDesugared_run (.block [] none) _,
        allocExpr_run _ _ _, ?_, ?_, ?_, ?_⟩
      · show ((s4.body.exprs ++ [Expr.block [] none]) ++ [_]).get?
          (s4.body.exprs ++ [Expr.block [] none]).length = _
        exact List.get?_concat_length _ _
      · show (s4.body.pats ++ [Pat.missing]).get? s4.body.pats.length = _
        exact List.get?_concat_length _ _
      · simp [lookupA]
      · simp [lookupA]
  | some eb0 =>
      cases eb0 with
      | blockBranch it =>
          rw [show collectExpr env
            (.ifExpr ptr (some (.mk (some pat) condExpr)) thenB
              (some (.blockBranch it))) =
            ((collectBlockOpt env thenB) >>= fun t =>
              (collectBlock env it) >>= fun b =>
              (collectPat env pat) >>= fun p =>
              (collectExprOpt env condExpr) >>= fun m =>
              missingPat >>= fun w =>
              allocExpr (.matchE m [⟨p, t, none⟩, ⟨w, b, none⟩]) ptr) from rfl] at h
          rw [M.bind_eq_ok] at h
          obtain ⟨t, s1, h1, h⟩ := h
          rw [M.bind_eq_ok] at h
          obtain ⟨b, s2, hb, h⟩ := h
          rw [M.bind_eq_ok] at h
          obtain ⟨p, s3, h2, h⟩ := h
          rw [M.bind_eq_ok] at h
          obtain ⟨m, s4, h3, h⟩ := h
          rw [M.bind_eq_ok] at h
          obtain ⟨w, s5, h4, h⟩ := h
          have e1 := presM_collectBlockOpt env thenB s t s1 h1
          have eb := presM_collectBlock env it s1 b s2 hb
          have e2 := presM_collectPat env pat s2 p s3 h2
          have e3 := presM_collectExprOpt env condExpr s3 m s4 h3
          have hfid : s4.currentFileId = s.currentFileId := by
            rw [e3.fileId, e2.fileId, eb.fileId, e1.fileId]
          have hce : collectElseBranch env (some (.blockBranch it)) s1 =
              .ok (some b, s2) := by
            rw [show collectElseBranch env (some (.blockBranch it)) =
              ((collectBlock env it) >>= fun x => M.pure (some x)) from rfl,
              M.bind_ok_left hb]
            rfl
          rw [missingPat_run] at h4
          cases h4
          rw [allocExpr_run] at h
          cases h
          rw [← hfid]
          refine ⟨t, s1, some b, s2, p, s3, m, s4, _, _, b, _, h1, hce, h2, h3,
            missingPat_run s4, ⟨rfl, rfl⟩, allocExpr_run _ _ _, ?_, ?_, ?_, ?_⟩
          · show (s4.body.exprs ++ [_]).get? s4.body.exprs.length = _
            exact List.get?_concat_length _ _
          · show (s4.body.pats ++ [Pat.missing]).get? s4.body.pats.length = _
            exact List.get?_concat_length _ _
          · simp [lookupA]
          · simp [lookupA]
      | ifBranch elif =>
          rw [show collectExpr env
            (.ifExpr ptr (some (.mk (some pat) condExpr)) thenB
              (some (.ifBranch elif))) =
            ((collectBlockOpt env thenB) >>= fun t =>
              (collectExpr env elif) >>= fun b =>
              (collectPat env pat) >>= fun p =>
              (collectExprOpt env condExpr) >>= fun m =>
              missingPat >>= fun w =>
              allocExpr (.matchE m [⟨p, t, none⟩, ⟨w, b, none⟩]) ptr) from rfl] at h
          rw [M.bind_eq_ok] at h
          obtain ⟨t, s1, h1, h⟩ := h
          rw [M.bind_eq_ok] at h
          obtain ⟨b, s2, hb, h⟩ := h
          rw [M.bind_eq_ok] at h
          obtain ⟨p, s3, h2, h⟩ := h
          rw [M.bind_eq_ok] at h
          obtain ⟨m, s4, h3, h⟩ := h
          rw [M.bind_eq_ok] at h
          obtain ⟨w, s5, h4, h⟩ := h
          have e1 := presM_collectBlockOpt env thenB s t s1 h1
          have eb := presM_collectExpr env elif s1 b s2 hb
          have e2 := presM_collectPat env pat s2 p s3 h2
          have e3 := presM_collectExprOpt env condExpr s3 m s4 h3
          have hfid : s4.currentFileId = s.currentFileId := by
            rw [e3.fileId, e2.fileId, eb.fileId, e1.fileId]
          have hce : collectElseBranch env (some (.ifBranch elif)) s1 =
              .ok (some b, s2) := by
            rw [show collectElseBranch env (some (.ifBranch elif)) =
              ((collectExpr env elif) >>= fun x => M.pure (some x)) from rfl,
              M.bind_ok_left hb]
            rfl
          rw [missingPat_run] at h4
          cases h4
          rw [allocExpr_run] at h
          cases h
          rw [← hfid]
          refine ⟨t, s1, some b, s2, p, s3, m, s4, _, _, b, _, h1, hce, h2, h3,
            missingPat_run s4, ⟨rfl, rfl⟩, allocExpr_run _ _ _, ?_, ?_, ?_, ?_⟩
          · show (s4.body.exprs ++ [_]).get? s4.body.exprs.length = _
            exact List.get?_concat_length _ _
          · show (s4.body.pats ++ [Pat.missing]).get? s4.body.pats.length = _
            exact List.get?_concat_length _ _
          · simp [lookupA]
          · simp [lookupA]

/-- C4 (amended): lowering `while let P = E { A }` produces an unconditional
loop node wrapping a desugared match over the lowered scrutinee with two
arms: the first arm's pattern is the lowered `P` and its result the lowered
loop body, while the second arm's pattern is a fresh `Pat.missing`
placeholder (not a wildcard) and its result a synthesized break; the break,
the match and the placeholder pattern all carry synthetic backward entries,
and the loop node carries the while-expression's real source pointer. -/
theorem C4_while_let_desugaring (env : Env) (ptr : Nat) (pat : AstPat)
    (condExpr : Option AstExpr) (loopBody : Option AstBlockExpr)
    (s : LowerState) (res : ExprId) (s' : LowerState)
    (h : collectExpr env (.whileExpr ptr (some (.mk (some pat) condExpr)) loopBody) s =
      .ok (res, s')) :
    ∃ body s1 p s2 m s3 w s4 brk s5 mid s6,
      collectBlockOpt env loopBody s = .ok (body, s1) ∧
      collectPat env pat s1 = .ok (p, s2) ∧
      collectExprOpt env condExpr s2 = .ok (m, s3) ∧
      missingPat s3 = .ok (w, s4) ∧
      allocExprDesugared (.breakE none) s4 = .ok (brk, s5) ∧
      allocExprDesugared (.matchE m [⟨p, body, none⟩, ⟨w, brk, none⟩]) s5 =
        .ok (mid, s6) ∧
      allocExpr (.loopE mid) ptr s6 = .ok (res, s') ∧
      s'.body.exprs.get? res = some (.loopE mid) ∧
      s'.body.exprs.get? mid =
        some (.matchE m [⟨p, body, none⟩, ⟨w, brk, none⟩]) ∧
      s'.body.exprs.get? brk = some (.breakE none) ∧
      s'.body.pats.get? w = some Pat.missing ∧
      lookupA w s4.sourceMap.patMapBack = some (.error .mk) ∧
      lookupA brk s5.sourceMap.exprMapBack = some (.error .mk) ∧
      lookupA mid s6.sourceMap.exprMapBack = some (.error .mk) ∧
      lookupA res s'.sourceMap.exprMapBack = some (.ok ⟨s.currentFileId, .exprP ptr⟩) := by
  rw [show collectExpr env (.whileExpr ptr (some (.mk (some pat) condExpr)) loopBody) =
    ((collectBlockOpt env loopBody) >>= fun body =>
      (collectPat env pat) >>= fun p =>
      (collectExprOpt env condExpr) >>= fun m =>
      missingPat >>= fun w =>
      (allocExprDesugared (.breakE none)) >>= fun brk =>
      (allocExprDesugared (.matchE m [⟨p, body, none⟩, ⟨w, brk, none⟩])) >>= fun mid =>
      allocExpr (.loopE mid) ptr) from rfl] at h
  rw [M.bind_eq_ok] at h
  obtain ⟨body, s1, h1, h⟩ := h
  rw [M.bind_eq_ok] at h
  obtain ⟨p, s2, h2, h⟩ := h
  rw [M.bind_eq_ok] at h
  obtain ⟨m, s3, h3, h⟩ := h
  rw [M.bind_eq_ok] at h
  obtain ⟨w, s4, h4, h⟩ := h
  rw [M.bind_eq_ok] at h
  obtain ⟨brk, s5, h5, h⟩ := h
  rw [M.bind_eq_ok] at h
  obtain ⟨mid, s6, h6, h⟩ := h
  have e1 := presM_collectBlockOpt env loopBody s body s1 h1
  have e2 := presM_collectPat env pat s1 p s2 h2
  have e3 := presM_collectExprOpt env condExpr s2 m s3 h3
  have hfid : s3.currentFileId = s.currentFileId := by
    rw [e3.fileId, e2.fileId, e1.fileId]
  rw [missingPat_run] at h4
  cases h4
  rw [allocExprDesugared_run] at h5
  cases h5
  rw [allocExprDesugared_run] at h6
  cases h6
  rw [allocExpr_run] at h
  cases h
  rw [← hfid]
  refine ⟨body, s1, p, s2, m, s3, _, _, _, _, _, _, h1, h2, h3,
    missingPat_run s3, allocExprDesugared_run _ _, allocExprDesugared_run _ _,
    allocExpr_run _ _ _, ?_, ?_, ?_, ?_, ?_, ?_, ?_, ?_⟩
  · exact List.get?_concat_length _ _
  · rw [List.get?_append (by simp)]
    exact List.get?_concat_length _ _
  · rw [List.get?_append (by simp), List.get?_append (by simp)]
    exact List.get?_concat_length _ _
  · exact List.get?_concat_length _ _
  · simp [lookupA]
  · simp [lookupA]
  · simp [lookupA]
  · simp [lookupA]

/-- The state produced by lowering the concrete `if let v = _ {}` run,
written out explicitly. -/
def c3State : LowerState :=
  { body := { exprs := [Expr.missing, Expr.missing, Expr.block [] none,
                Expr.matchE 1 [⟨0, 0, none⟩, ⟨1, 2, none⟩]],
              pats := [Pat.bind "v" BindingAnnotation.unannotated none, Pat.missing],
              params := [], bodyExpr := 4294967295,
              itemScope := { entries := [], defs := [], legacyMacros := [] } },
    sourceMap := { exprMap := [(⟨0, ExprPtr.exprP 85⟩, 3)],
                   exprMapBack := [(3, .ok ⟨0, ExprPtr.exprP 85⟩), (2, .error .mk),
                     (1, .error .mk), (0, .error .mk)],
                   patMap := [(⟨0, PatPtr.patP 86⟩, 0)],
                   patMapBack := [(1, .error .mk), (0, .ok ⟨0, PatPtr.patP 86⟩)],
                   fieldMap := [], expansions := [] },
    currentFileId := 0 }

/-- C3 counterexample: a concrete `if let` lowering in which the second
match arm's pattern is the `Pat.missing` placeholder — a distinct
constructor from the wildcard pattern `Pat.wild` the claim promises. -/
theorem C3_counterexample :
    ∃ s', collectExpr envC
        (.ifExpr 85 (some (.mk (some (.bindPat 86 (some "v") false false none)) none))
          none none)
        (initState 0) = .ok (3, s') ∧
      s'.body.exprs.get? 3 = some (.matchE 1 [⟨0, 0, none⟩, ⟨1, 2, none⟩]) ∧
      s'.body.pats.get? 1 = some Pat.missing ∧
      Pat.missing ≠ Pat.wild :=
  ⟨_, rfl, rfl, rfl, by decide⟩

/-- C3 witness: the amended if-let desugaring theorem instantiated at a
concrete `if let v = _ {}` with no else-branch. -/
theorem C3_if_let_desugaring_witness :
    ∃ t s1 eb s2 p s3 m s4 w s5 arm2 s6,
      collectBlockOpt envC none (initState 0) = .ok (t, s1) ∧
      collectElseBranch envC none s1 = .ok (eb, s2) ∧
      collectPat envC (.bindPat 86 (some "v") false false none) s2 = .ok (p, s3) ∧
      collectExprOpt envC none s3 = .ok (m, s4) ∧
      missingPat s4 = .ok (w, s5) ∧
      (match eb with
        | some b => arm2 = b ∧ s6 = s5
        | none => emptyBlock s5 = .ok (arm2, s6)) ∧
      allocExpr (.matchE m [⟨p, t, none⟩, ⟨w, arm2, none⟩]) 85 s6 = .ok (3, c3State) ∧
      c3State.body.exprs.get? 3 =
        some (.matchE m [⟨p, t, none⟩, ⟨w, arm2, none⟩]) ∧
      c3State.body.pats.get? w = some Pat.missing ∧
      lookupA w s5.sourceMap.patMapBack = some (.error .mk) ∧
      lookupA 3 c3State.sourceMap.exprMapBack =
        some (.ok ⟨(initState 0).currentFileId, .exprP 85⟩) :=
  C3_if_let_desugaring envC 85 (.bindPat 86 (some "v") false false none) none none
    none (initState 0) 3 c3State rfl

/-- The state produced by lowering the concrete `while let v = _ {}` run,
written out explicitly. -/
def c4State : LowerState :=
  { body := { exprs := [Expr.missing, Expr.missing, Expr.breakE none,
                Expr.matchE 1 [⟨0, 0, none⟩, ⟨1, 2, none⟩], Expr.loopE 3],
              pats := [Pat.bind "v" BindingAnnotation.unannotated none, Pat.missing],
              params := [], bodyExpr := 4294967295,
              itemScope := { entries := [], defs := [], legacyMacros := [] } },
    sourceMap := { exprMap := [(⟨0, ExprPtr.exprP 90⟩, 4)],
                   exprMapBack := [(4, .ok ⟨0, ExprPtr.exprP 90⟩), (3, .error .mk),
                     (2, .error .mk), (1, .error .mk), (0, .error .mk)],
                   patMap := [(⟨0, PatPtr.patP 91⟩, 0)],
                   patMapBack := [(1, .error .mk), (0, .ok ⟨0, PatPtr.patP 91⟩)],
                   fieldMap := [], expansions := [] },
    currentFileId := 0 }

/-- C4 counterexample: a concrete `while let` lowering in which the match
arm dispatching to the break has the `Pat.missing` placeholder as its
pattern — a distinct constructor from the wildcard pattern `Pat.wild` the
claim promises. -/
theorem C4_counterexample :
    ∃ s', collectExpr envC
        (.whileExpr 90
          (some (.mk (some (.bindPat 91 (some "v") false false none)) none)) none)
        (initState 0) = .ok (4, s') ∧
      s'.body.exprs.get? 4 = some (.loopE 3) ∧
      s'.body.exprs.get? 3 = some (.matchE 1 [⟨0, 0, none⟩, ⟨1, 2, none⟩]) ∧
      s'.body.pats.get? 1 = some Pat.missing ∧
      Pat.missing ≠ Pat.wild :=
  ⟨_, rfl, rfl, rfl, rfl, by decide⟩

/-- C4 witness: the amended while-let desugaring theorem instantiated at a
concrete `while let v = _ {}`. -/
theorem C4_while_let_desugaring_witness :
    ∃ body s1 p s2 m s3 w s4 brk s5 mid s6,
      collectBlockOpt envC none (initState 0) = .ok (body, s1) ∧
      collectPat envC (.bindPat 91 (some "v") false false none) s1 = .ok (p, s2) ∧
      collectExprOpt envC none s2 = .ok (m, s3) ∧
      missingPat s3 = .ok (w, s4) ∧
      allocExprDesugared (.breakE none) s4 = .ok (brk, s5) ∧
      allocExprDesugared (.matchE m [⟨p, body, none⟩, ⟨w, brk, none⟩]) s5 =
        .ok (mid, s6) ∧
      allocExpr (.loopE mid) 90 s6 = .ok (4, c4State) ∧
      c4State.body.exprs.get? 4 = some (.loopE mid) ∧
      c4State.body.exprs.get? mid =
        some (.matchE m [⟨p, body, none⟩, ⟨w, brk, none⟩]) ∧
      c4State.body.exprs.get? brk = some (.breakE none) ∧
      c4State.body.pats.get? w = some Pat.missing ∧
      lookupA w s4.sourceMap.patMapBack = some (.error .mk) ∧
      lookupA brk s5.sourceMap.exprMapBack = some (.error .mk) ∧
      lookupA mid s6.sourceMap.exprMapBack = some (.error .mk) ∧
      lookupA 4 c4State.sourceMap.exprMapBack =
        some (.ok ⟨(initState 0).currentFileId, .exprP 90⟩) :=
  C4_while_let_desugaring envC 90 (.bindPat 91 (some "v") false false none) none
    none (initState 0) 4 c4State rfl

/-- C2 (amended): the degradation behaviour for forms that cannot be fully
understood.  An absent optional child (expression or pattern) lowers to a
fresh missing placeholder with a synthetic backward entry; a macro call
whose expansion failed, and an unsupported pattern shape such as a box
pattern, lower to missing placeholders whose backward entries are the
syntax node's real source pointer (not synthetic); and a record pattern
missing its field list does not degrade at all — lowering aborts with the
`expect` panic message. -/
theorem C2_unlowerable_forms (env : Env) (s : LowerState) (ptr astId : Nat)
    (path : Option AstPath) :
    (∀ res s', collectExprOpt env none s = .ok (res, s') →
      s'.body.exprs.get? res = some Expr.missing ∧
      lookupA res s'.sourceMap.exprMapBack = some (.error Synthetic.mk)) ∧
    (∀ res s', collectPatOpt env none s = .ok (res, s') →
      s'.body.pats.get? res = some Pat.missing ∧
      lookupA res s'.sourceMap.patMapBack = some (.error Synthetic.mk)) ∧
    (∀ res s', collectExpr env (.macroCallE ptr astId none none) s = .ok (res, s') →
      s'.body.exprs.get? res = some Expr.missing ∧
      lookupA res s'.sourceMap.exprMapBack =
        some (.ok ⟨s.currentFileId, ExprPtr.exprP ptr⟩)) ∧
    (∀ res s', collectPat env (.boxPat ptr) s = .ok (res, s') →
      s'.body.pats.get? res = some Pat.missing ∧
      lookupA res s'.sourceMap.patMapBack =
        some (.ok ⟨s.currentFileId, PatPtr.patP ptr⟩)) ∧
    collectPat env (.recordPat ptr path none) s =
      .error "every struct should have a field list" := by
  refine ⟨?_, ?_, ?_, ?_, ?_⟩
  · intro res s' h
    rw [show collectExprOpt env none = missingExpr from rfl,
      show missingExpr = allocExprDesugared .missing from rfl,
      allocExprDesugared_run] at h
    cases h
    exact ⟨List.get?_concat_length _ _, by simp [lookupA]⟩
  · intro res s' h
    rw [show collectPatOpt env none = missingPat from rfl, missingPat_run] at h
    cases h
    exact ⟨List.get?_concat_length _ _, by simp [lookupA]⟩
  · intro res s' h
    rw [show collectExpr env (.macroCallE ptr astId none none) =
      ((toMacroSource ptr) >>= fun mc => allocExpr .missing ptr) from rfl] at h
    rw [M.bind_eq_ok] at h
    obtain ⟨mc, s1, h1, h⟩ := h
    cases h1
    rw [allocExpr_run] at h
    cases h
    exact ⟨List.get?_concat_length _ _, by simp [lookupA]⟩
  · intro res s' h
    rw [show collectPat env (.boxPat ptr) =
      allocPat .missing (.patP ptr) from rfl, allocPat_run] at h
    cases h
    exact ⟨List.get?_concat_length _ _, by simp [lookupA]⟩
  · cases path with
    | none => rfl
    | some p => rfl

/-- C2 counterexample: a record pattern with no field list makes the whole
lowering run abort through the panic channel with the `expect` message,
instead of degrading to a missing placeholder. -/
theorem C2_counterexample :
    collectPat envC (.recordPat 70 none none) (initState 0) =
      .error "every struct should have a field list" := rfl

/-- The state after lowering one absent expression child from the empty
state. -/
def c2ExprState : LowerState :=
  { body := { exprs := [Expr.missing], pats := [], params := [],
              bodyExpr := 4294967295,
              itemScope := { entries := [], defs := [], legacyMacros := [] } },
    sourceMap := { exprMap := [], exprMapBack := [(0, .error .mk)],
                   patMap := [], patMapBack := [], fieldMap := [], expansions := [] },
    currentFileId := 0 }

/-- The state after lowering one absent pattern child from the empty
state. -/
def c2PatState : LowerState :=
  { body := { exprs := [], pats := [Pat.missing], params := [],
              bodyExpr := 4294967295,
              itemScope := { entries := [], defs := [], legacyMacros := [] } },
    sourceMap := { exprMap := [], exprMapBack := [],
                   patMap := [], patMapBack := [(0, .error .mk)],
                   fieldMap := [], expansions := [] },
    currentFileId := 0 }

/-- The state after lowering one failed macro call from the empty state. -/
def c2MacroState : LowerState :=
  { body := { exprs := [Expr.missing], pats := [], params := [],
              bodyExpr := 4294967295,
              itemScope := { entries := [], defs := [], legacyMacros := [] } },
    sourceMap := { exprMap := [(⟨0, ExprPtr.exprP 70⟩, 0)],
                   exprMapBack := [(0, .ok ⟨0, ExprPtr.exprP 70⟩)],
                   patMap := [], patMapBack := [], fieldMap := [], expansions := [] },
    currentFileId := 0 }

/-- The state after lowering one box pattern from the empty state. -/
def c2BoxState : LowerState :=
  { body := { exprs := [], pats := [Pat.missing], params := [],
              bodyExpr := 4294967295,
              itemScope := { entries := [], defs := [], legacyMacros := [] } },
    sourceMap := { exprMap := [], exprMapBack := [],
                   patMap := [(⟨0, PatPtr.patP 70⟩, 0)],
                   patMapBack := [(0, .ok ⟨0, PatPtr.patP 70⟩)],
                   fieldMap := [], expansions := [] },
    currentFileId := 0 }

/-- C2 witness: the degradation theorem instantiated at concrete runs from
the empty state — an absent expression, an absent pattern, a failed macro
call at pointer 70 and a box pattern at pointer 70. -/
theorem C2_unlowerable_forms_witness :
    (c2ExprState.body.exprs.get? 0 = some Expr.missing ∧
      lookupA 0 c2ExprState.sourceMap.exprMapBack = some (.error Synthetic.mk)) ∧
    (c2PatState.body.pats.get? 0 = some Pat.missing ∧
      lookupA 0 c2PatState.sourceMap.patMapBack = some (.error Synthetic.mk)) ∧
    (c2MacroState.body.exprs.get? 0 = some Expr.missing ∧
      lookupA 0 c2MacroState.sourceMap.exprMapBack =
        some (.ok ⟨(initState 0).currentFileId, ExprPtr.exprP 70⟩)) ∧
    (c2BoxState.body.pats.get? 0 = some Pat.missing ∧
      lookupA 0 c2BoxState.sourceMap.patMapBack =
        some (.ok ⟨(initState 0).currentFileId, PatPtr.patP 70⟩)) :=
  ⟨(C2_unlowerable_forms envC (initState 0) 70 0 none).1 0 c2ExprState rfl,
   (C2_unlowerable_forms envC (initState 0) 70 0 none).2.1 0 c2PatState rfl,
   (C2_unlowerable_forms envC (initState 0) 70 0 none).2.2.1 0 c2MacroState rfl,
   (C2_unlowerable_forms envC (initState 0) 70 0 none).2.2.2.1 0 c2BoxState rfl⟩

/-- The body produced by lowering no parameter list and no body syntax. -/
def c7Body : Body :=
  { exprs := [Expr.missing], pats := [], params := [], bodyExpr := 0,
    itemScope := { entries := [], defs := [], legacyMacros := [] } }

/-- The source map produced by lowering no parameter list and no body
syntax. -/
def c7Sm : BodySourceMap :=
  { exprMap := [], exprMapBack := [(0, .error .mk)], patMap := [],
    patMapBack := [], fieldMap := [], expansions := [] }

/-- C7 witness: the totality theorem instantiated at the concrete empty
lowering run, sampled at id 0. -/
theorem C7_backward_maps_total_witness :
    countKey 0 c7Sm.exprMapBack = (if 0 < c7Body.exprs.length then 1 else 0) ∧
    countKey 0 c7Sm.patMapBack = (if 0 < c7Body.pats.length then 1 else 0) :=
  ⟨(C7_backward_maps_total envC 0 none none c7Body c7Sm rfl).1 0,
   (C7_backward_maps_total envC 0 none none c7Body c7Sm rfl).2 0⟩

/-- The body produced by lowering a parameter list with one pattern-less
parameter and one wildcard parameter. -/
def c10Body : Body :=
  { exprs := [Expr.missing], pats := [Pat.wild], params := [0], bodyExpr := 0,
    itemScope := { entries := [], defs := [], legacyMacros := [] } }

/-- The source map of the same run. -/
def c10Sm : BodySourceMap :=
  { exprMap := [], exprMapBack := [(0, .error .mk)],
    patMap := [(⟨0, PatPtr.patP 95⟩, 0)],
    patMapBack := [(0, .ok ⟨0, PatPtr.patP 95⟩)],
    fieldMap := [], expansions := [] }

/-- C10 witness: the parameter-skipping theorem instantiated at a concrete
list holding one pattern-less parameter and one wildcard parameter. -/
theorem C10_patless_params_skipped_witness :
    c10Body.params.length =
      (match (none : Option AstSelfParam) with | some _ => 1 | none => 0) +
        [AstParam.mk none none,
          AstParam.mk (some (.placeholderPat 95)) none].countP
          (fun p => (AstParam.patOf p).isSome) :=
  C10_patless_params_skipped envC 0 none
    [AstParam.mk none none, AstParam.mk (some (.placeholderPat 95)) none] none
    c10Body c10Sm rfl

/-- The state produced by collecting one function item and one `use` item
into the empty block scope. -/
def c9State : LowerState :=
  { body := { exprs := [], pats := [], params := [], bodyExpr := 4294967295,
              itemScope := { entries :=
                               [("f", PerNs.mk (ModuleDefId.functionId 7) Visibility.public)],
                             defs := [ModuleDefId.functionId 7], legacyMacros := [] } },
    sourceMap := { exprMap := [], exprMapBack := [], patMap := [],
                   patMapBack := [], fieldMap := [], expansions := [] },
    currentFileId := 0 }

/-- C9 witness: the public-visibility theorem instantiated at a concrete
item list holding a function declared module-visible and a `use` item. -/
theorem C9_block_items_public_visibility_witness :
    ∃ newE, c9State.body.itemScope.entries =
        newE ++ (initState 0).body.itemScope.entries ∧
      ∀ e ∈ newE, e.2.vis = Visibility.public :=
  C9_block_items_public_visibility envC
    [AstItem.fnDef 7 (some "f") (some (Visibility.moduleVis 3)), AstItem.useItem]
    (initState 0) () c9State rfl

/-- An environment whose value namespace resolves every path to a constant
(the disambiguation case that turns an identifier pattern into a path
pattern). -/
def envC6 : Env :=
  { envC with resolveTakeValues := fun _ _ => some (.constId 5) }

/-- The state produced by lowering the wildcard sub-pattern of the concrete
identifier-with-sub-pattern run. -/
def c6SubState : LowerState :=
  { body := { exprs := [], pats := [Pat.wild], params := [],
              bodyExpr := 4294967295,
              itemScope := { entries := [], defs := [], legacyMacros := [] } },
    sourceMap := { exprMap := [], exprMapBack := [],
                   patMap := [(⟨0, PatPtr.patP 78⟩, 0)],
                   patMapBack := [(0, .ok ⟨0, PatPtr.patP 78⟩)],
                   fieldMap := [], expansions := [] },
    currentFileId := 0 }

/-- C6 witness: the disambiguation theorem instantiated at concrete runs —
a constant-resolving environment (path pattern), a non-resolving one
(binding), a `mut` binding, and a binding with a wildcard sub-pattern. -/
theorem C6_bindpat_disambiguation_witness :
    (∃ id s', collectPat envC6 (.bindPat 77 (some "k") false false none)
        (initState 0) = .ok (id, s') ∧
      s'.body.pats.get? id = some (.path (Path.fromName "k"))) ∧
    (∃ id s', collectPat envC (.bindPat 77 (some "k") false false none)
        (initState 0) = .ok (id, s') ∧
      s'.body.pats.get? id = some (.bind "k" .unannotated none)) ∧
    (∃ id s', collectPat envC (.bindPat 77 (some "k") true false none)
        (initState 0) = .ok (id, s') ∧
      s'.body.pats.get? id = some (.bind "k" ( BindingAnnotation.new true false) none)) ∧
    (∃ id s', collectPat envC
        (.bindPat 77 (some "k") false false (some (.placeholderPat 78)))
        (initState 0) = .ok (id, s') ∧
      s'.body.pats.get? id =
        some (.bind "k" ( BindingAnnotation.new false false) (some 0))) :=
  ⟨(C6_bindpat_disambiguation envC6 (initState 0) 77 "k").1 5 rfl,
   (C6_bindpat_disambiguation envC (initState 0) 77 "k").2.2.2.2.2.1 rfl,
   (C6_bindpat_disambiguation envC (initState 0) 77 "k").2.2.2.2.2.2.1 true false rfl,
   (C6_bindpat_disambiguation envC (initState 0) 77 "k").2.2.2.2.2.2.2 false false
     (.placeholderPat 78) 0 c6SubState rfl⟩

end Lower
